import Mathlib

/-!
# Solace Core — Execution Authority Kernel: shallow embedding

This file embeds, in Lean 4, the decision-relevant parts of the
`solace-core` repository:

* the recursive canonicalizer `stableSort` / `canonical` and the SHA-256
  hashing wrappers (`src/server.js`, `src/unnamed/part_013`),
* the `/v1/execute` acceptance-only execution gate of the dual-surface
  server (`src/unnamed/part_013`), including authority-key registry
  lookup, acceptance signature verification, the append-only ledger with
  its unique index on `acceptance_hash`, and the fail-closed PERMIT path,
* the `/v1/authorize` advisory evaluation of the same server, and
* the in-process authority engine `authorizeExecution`
  (`src/authority-engine.js`, first document).

Cryptographic primitives (SHA-256, Ed25519/RSA verify, HMAC) are kept
abstract as environment parameters: the embedding tracks exactly which
byte strings are hashed, signed and compared, which is what the claims
are about.  Wall-clock time, `Date` parsing and UUID generation are
likewise environment parameters, so every definition is executable.
-/

namespace Solace

/-- JSON-like values as handled by the canonicalizer.  Numeric literals
are carried as their serialized decimal string, since `stableSort` and
`JSON.stringify` never re-type primitives. -/
inductive JValue where
  | null : JValue
  | bool (b : Bool) : JValue
  | num (s : String) : JValue
  | str (s : String) : JValue
  | arr (elems : List JValue) : JValue
  | obj (fields : List (String × JValue)) : JValue

/-- Lexicographic comparison of character lists by code point, the order
used by JavaScript's default `Array.prototype.sort()` on strings. -/
def lexLeB : List Char → List Char → Bool
  | [], _ => true
  | _ :: _, [] => false
  | a :: as, b :: bs =>
    if a.toNat < b.toNat then true
    else if b.toNat < a.toNat then false
    else lexLeB as bs

/-- String comparison used when sorting object keys. -/
def strLeB (a b : String) : Bool := lexLeB a.data b.data

/-- Key order used by `Object.keys(value).sort()` on object fields. -/
def keyLe (p q : String × JValue) : Prop := strLeB p.1 q.1 = true

instance : DecidableRel keyLe := fun _ _ => inferInstanceAs (Decidable (_ = true))

theorem lexLeB_total : ∀ a b, lexLeB a b = true ∨ lexLeB b a = true
  | [], _ => Or.inl rfl
  | _ :: _, [] => Or.inr rfl
  | a :: as, b :: bs => by
    by_cases hab : a.toNat < b.toNat
    · exact Or.inl (by simp [lexLeB, hab])
    · by_cases hba : b.toNat < a.toNat
      · exact Or.inr (by simp [lexLeB, hba])
      · rcases lexLeB_total as bs with h | h
        · exact Or.inl (by simp [lexLeB, hab, hba, h])
        · exact Or.inr (by simp [lexLeB, hab, hba, h])

theorem lexLeB_cons (a b : Char) (as bs : List Char) :
    lexLeB (a :: as) (b :: bs) =
      (if a.toNat < b.toNat then true
       else if b.toNat < a.toNat then false
       else lexLeB as bs) := rfl

theorem lexLeB_trans : ∀ a b c, lexLeB a b = true → lexLeB b c = true →
    lexLeB a c = true
  | [], _, _, _, _ => rfl
  | _ :: _, [], _, h, _ => by simp [lexLeB] at h
  | _ :: _, _ :: _, [], _, h => by simp [lexLeB] at h
  | a :: as, b :: bs, c :: cs, h1, h2 => by
    rw [lexLeB_cons] at h1 h2 ⊢
    rcases Nat.lt_trichotomy a.toNat b.toNat with hab | hab | hab
    · rcases Nat.lt_trichotomy b.toNat c.toNat with hbc | hbc | hbc
      · rw [if_pos (by omega)]
      · rw [if_pos (by omega)]
      · rw [if_neg (by omega), if_pos (by omega)] at h2
        exact absurd h2 (by simp)
    · rcases Nat.lt_trichotomy b.toNat c.toNat with hbc | hbc | hbc
      · rw [if_pos (by omega)]
      · rw [if_neg (by omega), if_neg (by omega)] at h1 h2 ⊢
        exact lexLeB_trans as bs cs h1 h2
      · rw [if_neg (by omega), if_pos (by omega)] at h2
        exact absurd h2 (by simp)
    · rw [if_neg (by omega), if_pos (by omega)] at h1
      exact absurd h1 (by simp)

theorem lexLeB_antisymm : ∀ a b, lexLeB a b = true → lexLeB b a = true → a = b
  | [], [], _, _ => rfl
  | [], _ :: _, _, h => by simp [lexLeB] at h
  | _ :: _, [], h, _ => by simp [lexLeB] at h
  | a :: as, b :: bs, h1, h2 => by
    rw [lexLeB_cons] at h1 h2
    rcases Nat.lt_trichotomy a.toNat b.toNat with hab | hab | hab
    · rw [if_neg (by omega), if_pos (by omega)] at h2
      exact absurd h2 (by simp)
    · rw [if_neg (by omega), if_neg (by omega)] at h1 h2
      have hv : a = b :=
        Char.eq_of_val_eq (UInt32.eq_of_toBitVec_eq
          (BitVec.eq_of_toNat_eq hab))
      rw [hv, lexLeB_antisymm as bs h1 h2]
    · rw [if_neg (by omega), if_pos (by omega)] at h1
      exact absurd h1 (by simp)

theorem strLeB_antisymm {a b : String} (h1 : strLeB a b = true)
    (h2 : strLeB b a = true) : a = b := by
  cases a; cases b
  exact congrArg String.mk (lexLeB_antisymm _ _ h1 h2)

instance : IsTotal (String × JValue) keyLe :=
  ⟨fun p q => lexLeB_total p.1.data q.1.data⟩

instance : IsTrans (String × JValue) keyLe :=
  ⟨fun _ _ _ h h2 => lexLeB_trans _ _ _ h h2⟩

mutual

/-- `stableSort` from `server.js`: recursively sorts object keys,
preserves array order, leaves primitives unchanged. -/
def stableSort : JValue → JValue
  | .null => .null
  | .bool b => .bool b
  | .num s => .num s
  | .str s => .str s
  | .arr l => .arr (stableSortL l)
  | .obj l => .obj (List.insertionSort keyLe (stableSortO l))

/-- `stableSort` mapped over an array's elements. -/
def stableSortL : List JValue → List JValue
  | [] => []
  | x :: xs => stableSort x :: stableSortL xs

/-- `stableSort` mapped over an object's values (keys unchanged). -/
def stableSortO : List (String × JValue) → List (String × JValue)
  | [] => []
  | (k, v) :: ps => (k, stableSort v) :: stableSortO ps

end

theorem stableSortL_eq_map (l : List JValue) :
    stableSortL l = l.map stableSort := by
  induction l with
  | nil => rfl
  | cons x xs ih => simp [stableSortL, ih]

theorem stableSortO_eq_map (l : List (String × JValue)) :
    stableSortO l = l.map fun p => (p.1, stableSort p.2) := by
  induction l with
  | nil => rfl
  | cons p ps ih => cases p; simp [stableSortO, ih]

/-- Sorting the fields commutes with `stableSort` applied to the values,
since the sort compares keys only and keys are preserved. -/
theorem stableSortO_insertionSort (l : List (String × JValue)) :
    stableSortO (List.insertionSort keyLe l) =
      List.insertionSort keyLe (stableSortO l) := by
  rw [stableSortO_eq_map, stableSortO_eq_map]
  exact List.map_insertionSort keyLe keyLe
    (fun p => (p.1, stableSort p.2)) l (fun _ _ _ _ => Iff.rfl)

mutual

theorem stableSort_idem : ∀ v, stableSort (stableSort v) = stableSort v
  | .null => rfl
  | .bool _ => rfl
  | .num _ => rfl
  | .str _ => rfl
  | .arr l => by
    simp only [stableSort]
    rw [stableSortL_idem l]
  | .obj l => by
    simp only [stableSort]
    rw [stableSortO_insertionSort, stableSortO_idem l]
    rw [List.Sorted.insertionSort_eq (List.sorted_insertionSort keyLe _)]

theorem stableSortL_idem : ∀ l, stableSortL (stableSortL l) = stableSortL l
  | [] => rfl
  | x :: xs => by
    simp only [stableSortL]
    rw [stableSort_idem x, stableSortL_idem xs]

theorem stableSortO_idem : ∀ l, stableSortO (stableSortO l) = stableSortO l
  | [] => rfl
  | (k, v) :: ps => by
    simp only [stableSortO]
    rw [stableSort_idem v, stableSortO_idem ps]

end

/-- Hexadecimal digit, lowercase, as produced by `JSON.stringify`'s
`\u00XX` escapes. -/
def hexDigit (n : Nat) : Char :=
  if n < 10 then Char.ofNat (48 + n) else Char.ofNat (87 + n)

/-- Escape of one character inside a JSON string literal, as produced by
`JSON.stringify`. -/
def escChar (c : Char) : List Char :=
  if c = '"' then ['\\', '"']
  else if c = '\\' then ['\\', '\\']
  else if c = '\x08' then ['\\', 'b']
  else if c = '\x09' then ['\\', 't']
  else if c = '\x0a' then ['\\', 'n']
  else if c = '\x0c' then ['\\', 'f']
  else if c = '\x0d' then ['\\', 'r']
  else if c.toNat < 32 then
    ['\\', 'u', '0', '0', hexDigit (c.toNat / 16), hexDigit (c.toNat % 16)]
  else [c]

/-- JSON string literal encoding (quote, escape, quote). -/
def encodeStr (s : String) : String :=
  String.mk ('"' :: ((s.data.map escChar).flatten ++ ['"']))

mutual

/-- `JSON.stringify` on a JSON-like value (no indentation argument):
no insignificant whitespace, keys in the order they appear. -/
def serialize : JValue → String
  | .null => "null"
  | .bool true => "true"
  | .bool false => "false"
  | .num s => s
  | .str s => encodeStr s
  | .arr l => "[" ++ serializeL l ++ "]"
  | .obj l => "\x7b" ++ serializeO l ++ "\x7d"

/-- Comma-separated serialization of array elements. -/
def serializeL : List JValue → String
  | [] => ""
  | [x] => serialize x
  | x :: y :: xs => serialize x ++ "," ++ serializeL (y :: xs)

/-- Comma-separated serialization of object fields. -/
def serializeO : List (String × JValue) → String
  | [] => ""
  | [(k, v)] => encodeStr k ++ ":" ++ serialize v
  | (k, v) :: q :: xs =>
    encodeStr k ++ ":" ++ serialize v ++ "," ++ serializeO (q :: xs)

end

/-- `canonical(obj) = JSON.stringify(stableSort(obj))` from `server.js`:
the canonical byte serialization used by every hash and signature. -/
def canonical (v : JValue) : String := serialize (stableSort v)

mutual

/-- Well-formedness of a JSON-like value: at every level, object keys
are pairwise distinct.  JavaScript objects satisfy this by construction
(`Object.keys` never repeats a key). -/
def wfJ : JValue → Bool
  | .null => true
  | .bool _ => true
  | .num _ => true
  | .str _ => true
  | .arr l => wfL l
  | .obj l => wfO l

/-- Well-formedness of array elements. -/
def wfL : List JValue → Bool
  | [] => true
  | x :: xs => wfJ x && wfL xs

/-- Well-formedness of object fields: the head key appears in no later
field, and all values are well-formed. -/
def wfO : List (String × JValue) → Bool
  | [] => true
  | (k, v) :: ps => !(ps.any fun q => q.1 == k) && wfJ v && wfO ps

end

mutual

/-- Semantic identity up to object-key insertion order: equal except
that object fields may be listed in a different order (values matched
key by key), with array order preserved. -/
inductive EquivJ : JValue → JValue → Prop where
  | null : EquivJ .null .null
  | bool (b : Bool) : EquivJ (.bool b) (.bool b)
  | num (s : String) : EquivJ (.num s) (.num s)
  | str (s : String) : EquivJ (.str s) (.str s)
  | arr : EquivL l l2 → EquivJ (.arr l) (.arr l2)
  | obj (m : List (String × JValue)) :
      List.Perm l m → EquivO m l2 → EquivJ (.obj l) (.obj l2)

/-- Pointwise `EquivJ` on lists (array elements, order preserved). -/
inductive EquivL : List JValue → List JValue → Prop where
  | nil : EquivL [] []
  | cons : EquivJ x y → EquivL xs ys → EquivL (x :: xs) (y :: ys)

/-- Pointwise `EquivJ` on object fields with identical keys. -/
inductive EquivO : List (String × JValue) → List (String × JValue) → Prop where
  | nil : EquivO [] []
  | cons (k : String) : EquivJ v w → EquivO ps qs →
      EquivO ((k, v) :: ps) ((k, w) :: qs)

end

/-- Strict key order: used to show sorted field lists with distinct keys
are uniquely determined. -/
def keyLtStrict (p q : String × JValue) : Prop := keyLe p q ∧ p.1 ≠ q.1

instance : IsAntisymm (String × JValue) keyLtStrict :=
  ⟨fun _ _ h1 h2 => absurd (strLeB_antisymm h1.1 h2.1) h1.2⟩

theorem wfL_mem {l : List JValue} (h : wfL l = true) :
    ∀ x ∈ l, wfJ x = true := by
  induction l with
  | nil => intro x hx; cases hx
  | cons y ys ih =>
    intro x hx
    simp only [wfL, Bool.and_eq_true] at h
    rcases List.mem_cons.mp hx with hx | hx
    · exact hx ▸ h.1
    · exact ih h.2 x hx

theorem wfO_mem {l : List (String × JValue)} (h : wfO l = true) :
    ∀ p ∈ l, wfJ p.2 = true := by
  induction l with
  | nil => intro p hp; cases hp
  | cons q qs ih =>
    intro p hp
    obtain ⟨k, v⟩ := q
    simp only [wfO, Bool.and_eq_true] at h
    rcases List.mem_cons.mp hp with hp | hp
    · exact hp ▸ h.1.2
    · exact ih h.2 p hp

theorem wfO_nodup_keys {l : List (String × JValue)} (h : wfO l = true) :
    (l.map Prod.fst).Nodup := by
  induction l with
  | nil => simp
  | cons q qs ih =>
    obtain ⟨k, v⟩ := q
    simp only [wfO, Bool.and_eq_true] at h
    simp only [List.map_cons, List.nodup_cons]
    refine ⟨fun hk => ?_, ih h.2⟩
    obtain ⟨p, hp, hpk⟩ := List.mem_map.mp hk
    have hfalse := h.1.1
    simp only [Bool.not_eq_true', List.any_eq_false] at hfalse
    have hpf := hfalse p hp
    rw [hpk] at hpf
    simp at hpf

theorem stableSortO_keys (l : List (String × JValue)) :
    (stableSortO l).map Prod.fst = l.map Prod.fst := by
  induction l with
  | nil => rfl
  | cons p ps ih => cases p; simp [stableSortO, ih]

/-- A `keyLe`-sorted field list with pairwise-distinct keys is sorted in
the strict key order. -/
theorem sorted_keyLtStrict {l : List (String × JValue)}
    (hs : l.Sorted keyLe) (hn : (l.map Prod.fst).Nodup) :
    l.Sorted keyLtStrict := by
  have hne : l.Pairwise fun p q => p.1 ≠ q.1 := List.pairwise_map.mp hn
  exact (List.Pairwise.and hs hne).imp fun h => ⟨h.1, h.2⟩

mutual

/-- `stableSort` identifies values that differ only in object key
insertion order (given distinct keys). -/
theorem stableSort_congr : ∀ v w, EquivJ v w → wfJ v = true →
    stableSort v = stableSort w
  | _, _, .null, _ => rfl
  | _, _, .bool b, _ => rfl
  | _, _, .num s, _ => rfl
  | _, _, .str s, _ => rfl
  | _, _, .arr h, hwf => by
    simp only [stableSort]
    rw [stableSortL_congr _ _ h hwf]
  | .obj l, .obj l2, .obj m hperm hm, hwf => by
    simp only [stableSort]
    have hvals : ∀ p ∈ m, wfJ p.2 = true := fun p hp =>
      wfO_mem hwf p (hperm.mem_iff.mpr hp)
    have hso : stableSortO m = stableSortO l2 :=
      stableSortO_congr m l2 hm hvals
    have hp2 : (stableSortO l).Perm (stableSortO l2) := by
      rw [stableSortO_eq_map, ← hso, stableSortO_eq_map]
      exact hperm.map _
    have hps : (List.insertionSort keyLe (stableSortO l)).Perm
        (List.insertionSort keyLe (stableSortO l2)) :=
      (List.perm_insertionSort keyLe _).trans
        (hp2.trans (List.perm_insertionSort keyLe _).symm)
    have hn1 : ((List.insertionSort keyLe (stableSortO l)).map
        Prod.fst).Nodup := by
      have hkperm : ((List.insertionSort keyLe (stableSortO l)).map
          Prod.fst).Perm (l.map Prod.fst) :=
        ((List.perm_insertionSort keyLe _).map _).trans
          (by rw [stableSortO_keys l])
      exact hkperm.nodup_iff.mpr (wfO_nodup_keys hwf)
    have hn2 : ((List.insertionSort keyLe (stableSortO l2)).map
        Prod.fst).Nodup := ((hps.map Prod.fst).nodup_iff).mp hn1
    have hs1 := sorted_keyLtStrict
      (List.sorted_insertionSort keyLe (stableSortO l)) hn1
    have hs2 := sorted_keyLtStrict
      (List.sorted_insertionSort keyLe (stableSortO l2)) hn2
    rw [List.eq_of_perm_of_sorted hps hs1 hs2]

/-- Array version of `stableSort_congr`. -/
theorem stableSortL_congr : ∀ l m, EquivL l m → wfL l = true →
    stableSortL l = stableSortL m
  | _, _, .nil, _ => rfl
  | _, _, .cons h hs, hwf => by
    simp only [wfL, Bool.and_eq_true] at hwf
    simp only [stableSortL]
    rw [stableSort_congr _ _ h hwf.1, stableSortL_congr _ _ hs hwf.2]

/-- Object-field version of `stableSort_congr` (keys already matched). -/
theorem stableSortO_congr : ∀ l m, EquivO l m →
    (∀ p ∈ l, wfJ p.2 = true) → stableSortO l = stableSortO m
  | _, _, .nil, _ => rfl
  | (k, v) :: ps, (_, w) :: qs, .cons _ h hs, hwf => by
    simp only [stableSortO]
    rw [stableSort_congr _ _ h (hwf (k, v) (by simp)),
      stableSortO_congr ps qs hs fun p hp => hwf p (by simp [hp])]

end

theorem canonical_congr {v w : JValue} (hwf : wfJ v = true)
    (h : EquivJ v w) : canonical v = canonical w := by
  unfold canonical
  rw [stableSort_congr v w h hwf]

theorem canonical_stableSort (v : JValue) :
    canonical (stableSort v) = canonical v := by
  unfold canonical
  rw [stableSort_idem v]

/-- C7: canonicalization is insensitive to object key insertion order —
two semantically identical values (`EquivJ`: equal up to object-field
order, array order preserved) with distinct keys canonicalize to
identical bytes — and idempotent: since `JSON.parse` of a serialized
value recovers the value structurally, `canonicalize_then_parse(v)` is
`stableSort v`, and canonicalizing it yields the same bytes. -/
theorem C7_canonical_key_order_insensitive_idempotent :
    (∀ v w : JValue, wfJ v = true → EquivJ v w →
      canonical v = canonical w) ∧
    (∀ v : JValue, canonical (stableSort v) = canonical v) :=
  ⟨fun _ _ hwf h => canonical_congr hwf h, canonical_stableSort⟩

/-- Concrete example value for the C7 witness (keys out of order at two
nesting levels). -/
def c7vEx : JValue :=
  .obj [("b", .num "1"),
        ("a", .arr [.obj [("y", .null), ("x", .bool true)]])]

/-- The same value as `c7vEx` with object fields listed in a different
insertion order. -/
def c7wEx : JValue :=
  .obj [("a", .arr [.obj [("x", .bool true), ("y", .null)]]),
        ("b", .num "1")]

/-- Witness for C7 at a concrete pair of values differing in key order
at two nesting levels. -/
theorem C7_witness :
    wfJ c7vEx = true ∧ EquivJ c7vEx c7wEx ∧
      canonical c7vEx = canonical c7wEx := by
  have hwf : wfJ c7vEx = true := rfl
  have hinner : EquivJ (JValue.obj [("y", .null), ("x", .bool true)])
      (JValue.obj [("x", .bool true), ("y", .null)]) :=
    EquivJ.obj [("x", JValue.bool true), ("y", JValue.null)]
      (List.Perm.swap ("x", JValue.bool true) ("y", JValue.null) [])
      (EquivO.cons "x" (EquivJ.bool true)
        (EquivO.cons "y" EquivJ.null EquivO.nil))
  have hequiv : EquivJ c7vEx c7wEx :=
    EquivJ.obj
      [("a", JValue.arr [JValue.obj [("y", JValue.null),
         ("x", JValue.bool true)]]),
       ("b", JValue.num "1")]
      (List.Perm.swap
        ("a", JValue.arr [JValue.obj [("y", JValue.null),
          ("x", JValue.bool true)]])
        ("b", JValue.num "1") [])
      (EquivO.cons "a"
        (EquivJ.arr (EquivL.cons hinner EquivL.nil))
        (EquivO.cons "b" (EquivJ.num "1") EquivO.nil))
  exact ⟨hwf, hequiv,
    C7_canonical_key_order_insensitive_idempotent.1 _ _ hwf hequiv⟩

/-- Decision values appearing in API responses and engine results. -/
inductive Dec where
  | PERMIT
  | DENY
  | ESCALATE
deriving DecidableEq, Repr

/-- JavaScript truthiness of an optional string field: absent
(`undefined`) and the empty string are falsy. -/
def truthy : Option String → Bool
  | none => false
  | some s => !s.isEmpty

/-- JavaScript truthiness of a JSON value (numbers are carried as their
literal, so numeric zero is the literal `0` or `-0`). -/
def jsTruthy : JValue → Bool
  | .null => false
  | .bool b => b
  | .num s => !(s == "0" || s == "-0" || s == "")
  | .str s => !s.isEmpty
  | .arr _ => true
  | .obj _ => true

/-- An acceptance object as presented in the `/v1/execute` request body.
Fields are `Option String`; `none` models an absent field. -/
structure Acceptance where
  issuer : Option String := none
  actorId : Option String := none
  intent : Option String := none
  issuedAt : Option String := none
  expiresAt : Option String := none
  signature : Option String := none
  authorityKeyId : Option String := none
  authorityKeyIdSnake : Option String := none

/-- One optional field of a JSON object (omitted when absent). -/
def optField (k : String) : Option String → List (String × JValue)
  | some s => [(k, JValue.str s)]
  | none => []

/-- The acceptance as the JSON object presented in the request, input of
`computeAcceptanceHash(acceptance) = sha256Hex(canonical(acceptance))`. -/
def Acceptance.toJ (a : Acceptance) : JValue :=
  .obj (optField "issuer" a.issuer ++ optField "actorId" a.actorId ++
    optField "intent" a.intent ++ optField "issuedAt" a.issuedAt ++
    optField "expiresAt" a.expiresAt ++
    optField "authorityKeyId" a.authorityKeyId ++
    optField "authority_key_id" a.authorityKeyIdSnake ++
    optField "signature" a.signature)

/-- The `intent` object of the request: `intent.actor.id`, the action
string `intent.intent`, and the full JSON value (hashed whole by
`computeIntentHash`). -/
structure IntentObj where
  actorId : Option String := none
  intentName : Option String := none
  json : JValue := .null

/-- The `/v1/execute` request body `{ intent, execute, acceptance }`. -/
structure RequestBody where
  intent : Option IntentObj := none
  execute : Option JValue := none
  acceptance : Option Acceptance := none

/-- A row of `public.solace_authority_keys` as selected by
`fetchAuthorityKeyById`.  Timestamp fields are already put through
`parseTs`: for `validFrom`, `none` means missing or unparseable; for
`validUntil`, `none` means absent (falsy), `some none` present but
unparseable, `some (some t)` parsed. -/
structure KeyRow where
  id : String
  organizationId : Option String := none
  principalId : Option String := none
  publicKey : String := ""
  validFrom : Option Int := none
  validUntil : Option (Option Int) := none
  status : String := ""

/-- `isWithinValidityWindow(row, now)` from the dual-surface server. -/
def isWithinValidityWindow (row : KeyRow) (now : Int) : Bool :=
  match row.validFrom with
  | none => false
  | some f =>
    if now < f then false
    else
      match row.validUntil with
      | none => true
      | some none => false
      | some (some u) => !(now > u)

/-- Outcome of `fetchAuthorityKeyById`.  The 60-second read-through
cache is transparent here because the registry is modeled as a pure
lookup. -/
inductive KeyFetch where
  | found (row : KeyRow)
  | notFound
  | lookupFailed (msg : String)

/-- Environment of the `/v1/execute` handler: wall clock (epoch ms),
`Date` parsing (`none` = invalid date), SHA-256 as hex, signature
verification (`verify pem material signatureB64`), the legacy fallback
issuer public key, the key registry, whether the ledger insert fails for
a reason other than the unique index, and the `startedAt` timestamp
echoed in the PERMIT response. -/
structure GateEnv where
  nowMs : Int
  parseDate : String → Option Int
  hashHex : String → String
  verify : String → String → String → Bool
  fallbackPem : String
  registry : String → KeyFetch
  writeFail : Bool
  startedAtIso : String

/-- `now < new Date(s)`: false when the date is invalid, since every
comparison with NaN is false. -/
def ltDate (now : Int) (d : Option Int) : Bool :=
  match d with
  | none => false
  | some t => decide (now < t)

/-- `now > new Date(s)`: false when the date is invalid. -/
def gtDate (now : Int) (d : Option Int) : Bool :=
  match d with
  | none => false
  | some t => decide (now > t)

/-- Whitespace test for `String.prototype.trim` (common characters). -/
def isWsp (c : Char) : Bool :=
  c == ' ' || c == '\t' || c == '\n' || c == '\r'

/-- `String.prototype.trim`. -/
def trimStr (s : String) : String :=
  String.mk (((s.data.dropWhile isWsp).reverse.dropWhile isWsp).reverse)

/-- `asUuidString`: `null` for a falsy input or an all-whitespace
string, the trimmed string otherwise. -/
def asUuidStr : Option String → Option String
  | none => none
  | some v =>
    let s := trimStr v
    if s.isEmpty then none else some s

/-- ASCII lower-casing of one character (`String.prototype.toLowerCase`
restricted to the ASCII letters a status value consists of). -/
def lowerChar (c : Char) : Char :=
  if 65 ≤ c.toNat && c.toNat ≤ 90 then Char.ofNat (c.toNat + 32) else c

/-- `String(row.status || "").toLowerCase()`. -/
def lowerStr (s : String) : String := String.mk (s.data.map lowerChar)

/-- A row of `solace_authority_ledger` as supplied by `ledgerWrite`
(`prev_hash`/`entry_hash` are computed by a DB trigger and play no role
in the decision logic). -/
structure LedgerRow where
  actorId : String
  intentName : String
  intentHash : String
  executeHash : Option String := none
  acceptanceHash : Option String := none
  decision : Dec
  reason : String
  authorityKeyId : Option String := none
  organizationId : Option String := none
  principalId : Option String := none

/-- `execute_hash || null` in `ledgerWrite`: the empty string becomes
`null`. -/
def orNull (s : String) : Option String :=
  if s.isEmpty then none else some s

/-- Outcome of one Supabase insert into the ledger table. -/
inductive InsertOutcome where
  | ok
  | uniqueViolation
  | failed
deriving DecidableEq, Repr

/-- `ledgerWrite` against Supabase: a generic write failure throws; the
unique partial index `solace_ledger_acceptance_hash_uniq` on
`(acceptance_hash) WHERE acceptance_hash IS NOT NULL` rejects a row
whose non-null `acceptance_hash` is already present. -/
def ledgerInsert (env : GateEnv) (st : List LedgerRow) (row : LedgerRow) :
    InsertOutcome × List LedgerRow :=
  if env.writeFail then (.failed, st)
  else
    match row.acceptanceHash with
    | some h =>
      if st.any fun r => r.acceptanceHash == some h then
        (.uniqueViolation, st)
      else (.ok, st ++ [row])
    | none => (.ok, st ++ [row])

/-- HTTP response of `/v1/execute` (the fields the claims are about;
the PERMIT response carries no `reason` field). -/
structure GateResponse where
  status : Nat
  decision : Dec
  reason : Option String := none
  executeHash : Option String := none
  intentHash : Option String := none
  time : Option String := none

/-- A plain 200/DENY response with a reason. -/
def denyResp (reason : String) : GateResponse :=
  { status := 200, decision := .DENY, reason := some reason }

/-- Best-effort DENY: attempt the evidence write, ignore its outcome
(the `try {} catch {}` around `ledgerWrite`), and answer 200/DENY. -/
def denyLogged (env : GateEnv) (st : List LedgerRow) (row : LedgerRow) :
    GateResponse × List LedgerRow :=
  (denyResp row.reason, (ledgerInsert env st row).2)

/-- `verifyAcceptanceSignatureWithKey`'s signing material:
`canonical({issuer, actorId, intent, executeHash, issuedAt, expiresAt})`
— note that it contains the hash of the canonicalized execution
payload. -/
def acceptMaterial
    (issuer actorId intentRef executeHash issuedAt expiresAt : String) :
    String :=
  canonical (.obj
    [("issuer", .str issuer), ("actorId", .str actorId),
     ("intent", .str intentRef), ("executeHash", .str executeHash),
     ("issuedAt", .str issuedAt), ("expiresAt", .str expiresAt)])

/-- Tail of the `/v1/execute` handler after key selection: verify the
external signature over the canonical material binding `executeHash`,
then the fail-closed PERMIT path — PERMIT is returned only if the
ledger insert succeeds, a unique-index violation is reported as
`acceptance_replay_detected`, any other failure as
`ledger_write_failed` (neither failure path writes a row). -/
def execFinish (env : GateEnv) (st : List LedgerRow)
    (actorId intentName intentHash executeHash acceptanceHash : String)
    (acc : Acceptance) (pem : String)
    (ledgerKeyId ledgerOrgId ledgerPrincipalId : Option String) :
    GateResponse × List LedgerRow :=
  if !(env.verify pem
      (acceptMaterial (acc.issuer.getD "") (acc.actorId.getD "")
        (acc.intent.getD "") executeHash (acc.issuedAt.getD "")
        (acc.expiresAt.getD ""))
      (acc.signature.getD "")) then
    denyLogged env st
      { actorId := actorId, intentName := intentName,
        intentHash := intentHash, executeHash := orNull executeHash,
        acceptanceHash := orNull acceptanceHash, decision := .DENY,
        reason := "invalid_acceptance_signature",
        authorityKeyId := ledgerKeyId, organizationId := ledgerOrgId,
        principalId := ledgerPrincipalId }
  else
    match ledgerInsert env st
      { actorId := actorId, intentName := intentName,
        intentHash := intentHash, executeHash := orNull executeHash,
        acceptanceHash := orNull acceptanceHash, decision := .PERMIT,
        reason := "valid_acceptance_signature",
        authorityKeyId := ledgerKeyId, organizationId := ledgerOrgId,
        principalId := ledgerPrincipalId } with
    | (.ok, st2) =>
      ({ status := 200, decision := .PERMIT,
         executeHash := some executeHash, intentHash := some intentHash,
         time := some env.startedAtIso }, st2)
    | (.uniqueViolation, st2) =>
      (denyResp "acceptance_replay_detected", st2)
    | (.failed, st2) => (denyResp "ledger_write_failed", st2)

/-- The checks of the `/v1/execute` handler after structural validation
and the binding-hash computations; the handler's local constants
`actorId`, `intentName`, `intentHash`, `executeHash`, `acceptanceHash`
are parameters here: acceptance completeness, time window, actor and
intent binding, optional registry key resolution (fail-closed; falls
back to the legacy issuer key when no `authorityKeyId` is given), then
`execFinish`. -/
def execChecks (env : GateEnv) (st : List LedgerRow)
    (actorId intentName intentHash executeHash acceptanceHash : String)
    (acc : Acceptance) : GateResponse × List LedgerRow :=
      if !(truthy acc.issuer && truthy acc.actorId && truthy acc.intent &&
          truthy acc.issuedAt && truthy acc.expiresAt &&
          truthy acc.signature) then
        denyLogged env st
          { actorId := actorId, intentName := intentName,
            intentHash := intentHash, executeHash := orNull executeHash,
            acceptanceHash := orNull acceptanceHash, decision := .DENY,
            reason := "invalid_or_missing_acceptance" }
      else if ltDate env.nowMs (env.parseDate (acc.issuedAt.getD "")) ||
          gtDate env.nowMs (env.parseDate (acc.expiresAt.getD "")) then
        denyLogged env st
          { actorId := actorId, intentName := intentName,
            intentHash := intentHash, executeHash := orNull executeHash,
            acceptanceHash := orNull acceptanceHash, decision := .DENY,
            reason := "acceptance_not_in_valid_time_window" }
      else if acc.actorId.getD "" != actorId then
        denyLogged env st
          { actorId := actorId, intentName := intentName,
            intentHash := intentHash, executeHash := orNull executeHash,
            acceptanceHash := orNull acceptanceHash, decision := .DENY,
            reason := "actor_binding_mismatch" }
      else if acc.intent.getD "" != intentName then
        denyLogged env st
          { actorId := actorId, intentName := intentName,
            intentHash := intentHash, executeHash := orNull executeHash,
            acceptanceHash := orNull acceptanceHash, decision := .DENY,
            reason := "intent_binding_mismatch" }
      else
        match asUuidStr acc.authorityKeyId <|>
            asUuidStr acc.authorityKeyIdSnake with
        | some keyId =>
          match env.registry keyId with
          | .lookupFailed _ =>
            denyLogged env st
              { actorId := actorId, intentName := intentName,
                intentHash := intentHash,
                executeHash := orNull executeHash,
                acceptanceHash := orNull acceptanceHash,
                decision := .DENY,
                reason := "authority_key_lookup_failed" }
          | .notFound =>
            denyLogged env st
              { actorId := actorId, intentName := intentName,
                intentHash := intentHash,
                executeHash := orNull executeHash,
                acceptanceHash := orNull acceptanceHash,
                decision := .DENY,
                reason := "authority_key_not_found" }
          | .found row =>
            if lowerStr row.status != "active" then
              denyLogged env st
                { actorId := actorId, intentName := intentName,
                  intentHash := intentHash,
                  executeHash := orNull executeHash,
                  acceptanceHash := orNull acceptanceHash,
                  decision := .DENY,
                  reason := "authority_key_inactive",
                  authorityKeyId := some row.id,
                  organizationId := row.organizationId,
                  principalId := row.principalId }
            else if !(isWithinValidityWindow row env.nowMs) then
              denyLogged env st
                { actorId := actorId, intentName := intentName,
                  intentHash := intentHash,
                  executeHash := orNull executeHash,
                  acceptanceHash := orNull acceptanceHash,
                  decision := .DENY,
                  reason := "authority_key_outside_validity_window",
                  authorityKeyId := some row.id,
                  organizationId := row.organizationId,
                  principalId := row.principalId }
            else
              execFinish env st actorId intentName intentHash executeHash
                acceptanceHash acc row.publicKey (some row.id)
                row.organizationId row.principalId
        | none =>
          execFinish env st actorId intentName intentHash executeHash
            acceptanceHash acc env.fallbackPem none none none

/-- The `POST /v1/execute` handler of the dual-surface server
(`src/unnamed/part_013`): structural validation (fail closed), the
binding hashes `intentHash`/`executeHash`/`acceptanceHash`, then
`execChecks`. -/
def executeGate (env : GateEnv) (st : List LedgerRow)
    (body : RequestBody) : GateResponse × List LedgerRow :=
  match body.intent, body.execute, body.acceptance with
  | some intent, some execute, some acc =>
    if !(truthy intent.actorId && truthy intent.intentName &&
        jsTruthy execute) then
      (denyResp "invalid_or_missing_execute_request", st)
    else
      execChecks env st (intent.actorId.getD "")
        (intent.intentName.getD "") (env.hashHex (canonical intent.json))
        (env.hashHex (canonical execute))
        (env.hashHex (canonical acc.toJ)) acc
  | _, _, _ => (denyResp "invalid_or_missing_execute_request", st)

/-- An `/v1/authorize` request body: `actor.id`, the `intent` string,
and `context.deadline_minutes` when it is a number. -/
structure AuthIntent where
  actorId : Option String := none
  intentName : Option String := none
  deadlineMinutes : Option Int := none

/-- The decision logic of `POST /v1/authorize` (advisory surface; the
evidence write is best-effort and does not affect the response). -/
def authorizeDecision (body : Option AuthIntent) : Dec × String :=
  match body with
  | none => (.DENY, "invalid_authorize_request")
  | some b =>
    if !(truthy b.intentName && truthy b.actorId) then
      (.DENY, "invalid_authorize_request")
    else if b.intentName == some "generate_court_filing_language" &&
        (match b.deadlineMinutes with
         | some m => decide (m ≤ 30)
         | none => false) then
      (.ESCALATE,
        "high_liability_time_constrained_action_requires_external_acceptance")
    else (.DENY, "no_acceptance_issued")

/-- `MAX_ACCEPTANCE_WINDOW_MS` from `authority-engine.js`: 10 minutes. -/
def MAX_ACCEPTANCE_WINDOW_MS : Int := 10 * 60 * 1000

/-- Acceptance artifact consumed by the in-process engine: timestamps,
declared algorithm, and the signature in the shape matching it
(`sig` base64url for ed25519, `sigHex` for hmac-sha256). -/
structure EngAcceptance where
  issuedAt : Option String := none
  expiresAt : Option String := none
  alg : Option String := none
  sig : Option String := none
  sigHex : Option String := none

/-- Engine intent: actor id, the resolved action name (modelling the
coalescing `intent.intent || intent.action?.name || intent.action`),
the context flags the engine reads, and the optional acceptance. -/
structure EngIntent where
  actorId : Option String := none
  actionName : Option String := none
  deadlinePressure : Bool := false
  deadlineMinutes : Option Int := none
  humanAttestation : Bool := false
  acceptance : Option EngAcceptance := none

/-- One entry of the deterministic `POLICY` table. -/
structure EngPolicy where
  risk : String
  requireAcceptance : Bool
  onDeadlinePressure : Option String := none
  onUnclear : String

/-- `POLICY.draft_assist`. -/
def POLICY_draft_assist : EngPolicy :=
  { risk := "low", requireAcceptance := false, onUnclear := "DENY" }

/-- `POLICY.reliance_eligible_output`. -/
def POLICY_reliance : EngPolicy :=
  { risk := "high", requireAcceptance := true,
    onDeadlinePressure := some "ESCALATE", onUnclear := "ESCALATE" }

/-- `policyForAction(actionName)`: lookup in the `POLICY` table. -/
def policyForAction (actionName : String) : Option EngPolicy :=
  if actionName == "draft_assist" then some POLICY_draft_assist
  else if actionName == "reliance_eligible_output" then
    some POLICY_reliance
  else none

/-- Engine environment: wall clock, `Date` parsing, actor public-key
registry (`getActorPublicKeyPem`, `none` when no valid PEM is
registered), Ed25519 and HMAC verification, SHA-256 hex for the replay
key, `toISOString`, and the two `crypto.randomUUID()` draws used for
`permitId` and `jti`. -/
structure EngEnv where
  nowMs : Int
  parseDate : String → Option Int
  pubkeyFor : String → Option String
  verifyEd : String → String → String → Bool
  verifyHmac : String → String → Bool
  hashHex : String → String
  msToIso : Int → String
  uuid1 : String
  uuid2 : String

/-- Engine result: DENY/ESCALATE carry a reason (and possibly a
`required` list), PERMIT carries `permitId`, `jti`, `expiresAt`. -/
structure EngResult where
  decision : Dec
  reason : Option String := none
  permitId : Option String := none
  jti : Option String := none
  expiresAt : Option String := none
  required : List String := []

/-- `cleanupSeenAcceptance` over `SEEN_ACCEPTANCE_IDS` (modeled as an
association list acceptanceId → expiresAt epoch ms): drop entries whose
expiry is not in the future. -/
def cleanupSeen (now : Int) (seen : List (String × Int)) :
    List (String × Int) :=
  seen.filter fun p => decide (now < p.2)

/-- `makeCanonicalAcceptancePayload`: plain `JSON.stringify` with the
fixed key order actor, action, issuedAt, expiresAt. -/
def makeCanonicalAcceptancePayload
    (actorId action issuedAt expiresAt : String) : String :=
  serialize (.obj
    [("actor", .str actorId), ("action", .str action),
     ("issuedAt", .str issuedAt), ("expiresAt", .str expiresAt)])

/-- `makeAcceptanceId`: SHA-256 of `actorId|payload|signature`. -/
def makeAcceptanceId (env : EngEnv)
    (actorId payload signatureB64 : String) : String :=
  env.hashHex (actorId ++ "|" ++ payload ++ "|" ++ signatureB64)

/-- Outcome of the signature-verification step of `authorizeExecution`:
an early DENY reason, or the boolean verdict. -/
inductive SigStep where
  | fail (reason : String)
  | verdict (ok : Bool)

/-- Signature dispatch of `authorizeExecution` on the declared
algorithm (registered-key lookup happens before the presence check of
the signature, as in the source). -/
def engineSigCheck (env : EngEnv) (actorId alg payload : String)
    (acc : EngAcceptance) : SigStep :=
  if alg == "ed25519" then
    match env.pubkeyFor actorId with
    | none => .fail "unknown_actor_public_key"
    | some pem =>
      if !(truthy acc.sig) then .fail "missing_signature"
      else .verdict (env.verifyEd payload (acc.sig.getD "") pem)
  else if alg == "hmac-sha256" then
    if !(truthy acc.sigHex) then .fail "missing_signature"
    else .verdict (env.verifyHmac payload (acc.sigHex.getD ""))
  else .fail "unsupported_acceptance_algorithm"

/-- Signature, replay and attestation tail of `authorizeExecution`,
reached after the temporal checks: algorithm dispatch, signature
verification over the canonical payload, the in-memory replay guard
keyed by `makeAcceptanceId`, the human-attestation escalation for
`reliance_eligible_output`, and the time-bound PERMIT.  `expires` is
the parsed expiry used as the replay entry's TTL. -/
def engineFinish (env : EngEnv) (seen1 : List (String × Int))
    (actorId actionName : String) (humanAttestation : Bool)
    (acc : EngAcceptance) (expires : Int) :
    EngResult × List (String × Int) :=
  let alg :=
    match acc.alg with
    | some s => if s.isEmpty then "ed25519" else s
    | none => "ed25519"
  let payload := makeCanonicalAcceptancePayload actorId actionName
    (acc.issuedAt.getD "") (acc.expiresAt.getD "")
  match engineSigCheck env actorId alg payload acc with
  | .fail r => ({ decision := .DENY, reason := some r }, seen1)
  | .verdict ok =>
    if !ok then
      ({ decision := .DENY,
         reason := some "invalid_cryptographic_acceptance" }, seen1)
    else
      let replayKeySig :=
        if alg == "ed25519" then acc.sig.getD "" else acc.sigHex.getD ""
      let acceptanceId := makeAcceptanceId env actorId payload replayKeySig
      if seen1.any fun p => p.1 == acceptanceId then
        ({ decision := .DENY,
           reason := some "acceptance_replay_detected" }, seen1)
      else
        let seen2 := seen1 ++ [(acceptanceId, expires)]
        if actionName == "reliance_eligible_output" &&
            !humanAttestation then
          ({ decision := .ESCALATE,
             reason := some "human_attestation_required",
             required := ["human_attestation"] }, seen2)
        else
          ({ decision := .PERMIT, permitId := some env.uuid1,
             jti := some env.uuid2,
             expiresAt := some (acc.expiresAt.getD "") }, seen2)

/-- `authorizeExecution(intent)` from `src/authority-engine.js` (first
document): fail-closed structural validation, deterministic policy
resolution, the deadline-pressure boundary, the acceptance-free PERMIT
for policies not requiring acceptance, temporal checks with the window
cap, then `engineFinish`. -/
def authorizeExecution (env : EngEnv) (seen : List (String × Int))
    (intent : Option EngIntent) : EngResult × List (String × Int) :=
  let seen1 := cleanupSeen env.nowMs seen
  match intent with
  | none =>
    ({ decision := .DENY, reason := some "invalid_or_missing_actor" },
      seen1)
  | some it =>
    if !(truthy it.actorId) then
      ({ decision := .DENY, reason := some "invalid_or_missing_actor" },
        seen1)
    else if !(truthy it.actionName) then
      ({ decision := .DENY, reason := some "invalid_or_missing_action" },
        seen1)
    else
      let actorId := it.actorId.getD ""
      let actionName := it.actionName.getD ""
      match policyForAction actionName with
      | none =>
        ({ decision := .DENY,
           reason := some "unknown_action_not_authorized" }, seen1)
      | some policy =>
        let deadlinePressure := it.deadlinePressure ||
          (match it.deadlineMinutes with
           | some m => decide (m ≤ 30)
           | none => false)
        if actionName == "reliance_eligible_output" && deadlinePressure
        then
          if policy.onDeadlinePressure == some "DENY" then
            ({ decision := .DENY,
               reason := some "authority_undefined_under_pressure" },
              seen1)
          else
            ({ decision := .ESCALATE,
               reason := some "human_attestation_required_under_pressure",
               required := ["explicit_acceptance", "human_attestation"] },
              seen1)
        else if !policy.requireAcceptance then
          ({ decision := .PERMIT, permitId := some env.uuid1,
             jti := some env.uuid2,
             expiresAt := some (env.msToIso (env.nowMs + 2 * 60 * 1000)) },
            seen1)
        else
          match it.acceptance with
          | none =>
            ({ decision := .DENY,
               reason := some "missing_explicit_acceptance" }, seen1)
          | some acc =>
            if !(truthy acc.issuedAt) || !(truthy acc.expiresAt) then
              ({ decision := .DENY,
                 reason := some "malformed_acceptance_timestamps" },
                seen1)
            else
              match env.parseDate (acc.issuedAt.getD ""),
                  env.parseDate (acc.expiresAt.getD "") with
              | some issued, some expires =>
                if env.nowMs < issued || env.nowMs > expires then
                  ({ decision := .DENY,
                     reason := some "authorization_expired" }, seen1)
                else if expires - issued ≤ 0 ||
                    expires - issued > MAX_ACCEPTANCE_WINDOW_MS then
                  ({ decision := .DENY,
                     reason := some "invalid_acceptance_window" }, seen1)
                else
                  engineFinish env seen1 actorId actionName
                    it.humanAttestation acc expires
              | _, _ =>
                ({ decision := .DENY,
                   reason := some "invalid_acceptance_timestamps" },
                  seen1)

theorem execFinish_decision_cases (env : GateEnv) (st : List LedgerRow)
    (a b c d e : String) (acc : Acceptance) (pem : String)
    (k o p : Option String) :
    (execFinish env st a b c d e acc pem k o p).1.decision = Dec.PERMIT ∨
    (execFinish env st a b c d e acc pem k o p).1.decision = Dec.DENY := by
  unfold execFinish
  repeat' split
  all_goals first
    | exact Or.inl rfl
    | exact Or.inr rfl

theorem execChecks_decision_cases (env : GateEnv) (st : List LedgerRow)
    (a b c d e : String) (acc : Acceptance) :
    (execChecks env st a b c d e acc).1.decision = Dec.PERMIT ∨
    (execChecks env st a b c d e acc).1.decision = Dec.DENY := by
  unfold execChecks
  repeat' split
  all_goals first
    | exact execFinish_decision_cases ..
    | exact Or.inl rfl
    | exact Or.inr rfl

/-- C4: the decision endpoint `/v1/execute` only ever answers PERMIT or
DENY; the ESCALATE decision value is produced by the upstream advisory
evaluator `/v1/authorize` (shown at a concrete input), never by the
execution gate. -/
theorem executeGate_decision_cases (env : GateEnv) (st : List LedgerRow)
    (body : RequestBody) :
    (executeGate env st body).1.decision = Dec.PERMIT ∨
    (executeGate env st body).1.decision = Dec.DENY := by
  unfold executeGate
  repeat' split
  all_goals first
    | exact execChecks_decision_cases ..
    | exact Or.inl rfl
    | exact Or.inr rfl

theorem C4_gate_never_escalates :
    (∀ (env : GateEnv) (st : List LedgerRow) (body : RequestBody),
      (executeGate env st body).1.decision = Dec.PERMIT ∨
      (executeGate env st body).1.decision = Dec.DENY) ∧
    (authorizeDecision (some
      { actorId := some "A1",
        intentName := some "generate_court_filing_language",
        deadlineMinutes := some 10 })).1 = Dec.ESCALATE :=
  ⟨fun env st body => executeGate_decision_cases env st body, rfl⟩

theorem execFinish_reason_ne (env : GateEnv) (st : List LedgerRow)
    (a b c d e : String) (acc : Acceptance) (pem : String)
    (k o p : Option String) :
    (execFinish env st a b c d e acc pem k o p).1.reason ≠
      some "acceptance_not_in_valid_time_window" := by
  unfold execFinish
  repeat' split
  all_goals simp [denyLogged, denyResp]

/-- C8: with the acceptance window parsing to `[i, e]` and a structurally
complete request, evaluating at `e − 1` ms passes the temporal check
(the response is never the time-window denial), while evaluating at
`e + 1` ms yields DENY with reason `acceptance_not_in_valid_time_window`
regardless of anything later in the pipeline. -/
theorem C8_expiry_boundary (env : GateEnv) (st : List LedgerRow)
    (it : IntentObj) (ex : JValue) (acc : Acceptance) (i e : Int)
    (h1 : truthy it.actorId = true) (h2 : truthy it.intentName = true)
    (h3 : jsTruthy ex = true)
    (c1 : truthy acc.issuer = true) (c2 : truthy acc.actorId = true)
    (c3 : truthy acc.intent = true) (c4 : truthy acc.issuedAt = true)
    (c5 : truthy acc.expiresAt = true) (c6 : truthy acc.signature = true)
    (hpi : env.parseDate (acc.issuedAt.getD "") = some i)
    (hpe : env.parseDate (acc.expiresAt.getD "") = some e)
    (hie : i ≤ e - 1) :
    (executeGate { env with nowMs := e - 1 } st
        { intent := some it, execute := some ex,
          acceptance := some acc }).1.reason ≠
      some "acceptance_not_in_valid_time_window" ∧
    (executeGate { env with nowMs := e + 1 } st
        { intent := some it, execute := some ex,
          acceptance := some acc }).1 =
      denyResp "acceptance_not_in_valid_time_window" := by
  constructor
  · have hlt : ltDate (e - 1) (env.parseDate (acc.issuedAt.getD "")) =
        false := by
      rw [hpi]; simp only [ltDate, decide_eq_false_iff_not]; omega
    have hgt : gtDate (e - 1) (env.parseDate (acc.expiresAt.getD "")) =
        false := by
      rw [hpe]; simp only [gtDate, decide_eq_false_iff_not]; omega
    simp only [executeGate, execChecks, h1, h2, h3, c1, c2, c3, c4, c5,
      c6, hlt, hgt, Bool.and_self, Bool.and_true, Bool.true_and,
      Bool.not_true, Bool.false_or, Bool.or_false, if_false,
      Bool.false_eq_true, if_neg, reduceIte]
    repeat' split
    all_goals first
      | apply execFinish_reason_ne
      | simp [denyLogged, denyResp]
  · have hgt : gtDate (e + 1) (env.parseDate (acc.expiresAt.getD "")) =
        true := by
      rw [hpe]; simp only [gtDate, decide_eq_true_eq]; omega
    simp only [executeGate, execChecks, h1, h2, h3, c1, c2, c3, c4, c5,
      c6, hgt, Bool.and_self, Bool.and_true, Bool.true_and,
      Bool.not_true, Bool.or_true, Bool.false_eq_true, if_neg,
      reduceIte]
    simp [denyLogged]

/-- Concrete `Date` parsing table for witnesses: `t0` ↦ 0 ms,
`t9` ↦ 600000 ms (10 minutes later), anything else invalid. -/
def wParseDate (s : String) : Option Int :=
  if s == "t0" then some 0 else if s == "t9" then some 600000 else none

/-- A structurally complete concrete acceptance for witnesses. -/
def wAcc : Acceptance :=
  { issuer := some "I", actorId := some "A1", intent := some "transfer",
    issuedAt := some "t0", expiresAt := some "t9",
    signature := some "SIG" }

/-- A concrete intent object for witnesses. -/
def wIntent : IntentObj :=
  { actorId := some "A1", intentName := some "transfer",
    json := .obj [("actorId", .str "A1")] }

/-- A concrete gate environment for witnesses: hashing by input length
(enough to distinguish the inputs used), a permissive verifier, no
registry rows, and a writable ledger. -/
def wEnv : GateEnv :=
  { nowMs := 1000, parseDate := wParseDate,
    hashHex := fun s => toString s.length,
    verify := fun _ _ _ => true,
    fallbackPem := "PEM", registry := fun _ => .notFound,
    writeFail := false, startedAtIso := "T" }

/-- Witness for C8 at the concrete window `[0 ms, 600000 ms]`. -/
theorem C8_witness :
    (0 : Int) ≤ 600000 - 1 ∧
    ((executeGate { wEnv with nowMs := (600000 : Int) - 1 } []
        { intent := some wIntent, execute := some (.obj []),
          acceptance := some wAcc }).1.reason ≠
      some "acceptance_not_in_valid_time_window" ∧
    (executeGate { wEnv with nowMs := (600000 : Int) + 1 } []
        { intent := some wIntent, execute := some (.obj []),
          acceptance := some wAcc }).1 =
      denyResp "acceptance_not_in_valid_time_window") :=
  ⟨by decide,
    C8_expiry_boundary wEnv [] wIntent (.obj []) wAcc 0 600000
      rfl rfl rfl rfl rfl rfl rfl rfl rfl rfl rfl (by decide)⟩

theorem engineSigCheck_fail_reasons (env : EngEnv)
    (actorId alg payload : String) (acc : EngAcceptance) (r : String)
    (h : engineSigCheck env actorId alg payload acc = .fail r) :
    r = "unknown_actor_public_key" ∨ r = "missing_signature" ∨
    r = "unsupported_acceptance_algorithm" := by
  unfold engineSigCheck at h
  repeat' split at h
  all_goals cases h
  all_goals simp

theorem engineFinish_reason_ne (env : EngEnv)
    (seen1 : List (String × Int)) (actorId actionName : String)
    (hA : Bool) (acc : EngAcceptance) (expires : Int) :
    (engineFinish env seen1 actorId actionName hA acc
        expires).1.reason ≠ some "invalid_acceptance_window" := by
  simp only [engineFinish]
  repeat' split
  all_goals first
    | (simp
       done)
    | (rename_i r heq
       intro hr
       simp only [Option.some.injEq] at hr
       rcases engineSigCheck_fail_reasons _ _ _ _ _ _ heq
         with h | h | h <;> simp [h] at hr)

/-- C5: once the engine's temporal check is reached (structurally valid
reliance intent, no deadline pressure, parsed timestamps, `now` inside
`[i, e]`), the engine denies with reason `invalid_acceptance_window`
exactly when the window invariant `i < e ∧ e − i ≤
MAX_ACCEPTANCE_WINDOW_MS` fails. -/
theorem C5_engine_window_cap (env : EngEnv) (seen : List (String × Int))
    (it : EngIntent) (acc : EngAcceptance) (i e : Int)
    (ha : truthy it.actorId = true)
    (hn : it.actionName = some "reliance_eligible_output")
    (hacc : it.acceptance = some acc)
    (hnp : it.deadlinePressure = false)
    (hm : it.deadlineMinutes = none)
    (t1 : truthy acc.issuedAt = true) (t2 : truthy acc.expiresAt = true)
    (hpi : env.parseDate (acc.issuedAt.getD "") = some i)
    (hpe : env.parseDate (acc.expiresAt.getD "") = some e)
    (hin : i ≤ env.nowMs) (hex : env.nowMs ≤ e) :
    ((authorizeExecution env seen (some it)).1.decision = Dec.DENY ∧
     (authorizeExecution env seen (some it)).1.reason =
       some "invalid_acceptance_window") ↔
    ¬(i < e ∧ e - i ≤ MAX_ACCEPTANCE_WINDOW_MS) := by
  have hnow : (decide (env.nowMs < i) || decide (env.nowMs > e)) =
      false := by simp; omega
  have htn : truthy (some "reliance_eligible_output") = true := rfl
  have hpol : policyForAction "reliance_eligible_output" =
      some POLICY_reliance := rfl
  simp only [authorizeExecution, ha, hn, hacc, hnp, hm, t1, t2, hpi,
    hpe, hnow, htn, hpol, Bool.not_true, Bool.not_false,
    Bool.false_eq_true, Bool.and_self, Bool.and_true, Bool.true_and,
    Bool.and_false, Bool.or_self, Bool.false_or, Bool.or_false,
    Option.getD_some, reduceIte, POLICY_reliance, String.reduceEq,
    beq_self_eq_true, reduceCtorEq]
  by_cases hc : i < e ∧ e - i ≤ MAX_ACCEPTANCE_WINDOW_MS
  · have hcond : (decide (e - i ≤ 0) ||
        decide (e - i > MAX_ACCEPTANCE_WINDOW_MS)) = false := by
      simp only [Bool.or_eq_false_iff, decide_eq_false_iff_not]
      omega
    simp only [hcond, Bool.false_eq_true, reduceIte]
    refine iff_of_false ?_ (not_not_intro hc)
    rintro ⟨hd, hr⟩
    exact engineFinish_reason_ne _ _ _ _ _ _ _ hr
  · have hcond : (decide (e - i ≤ 0) ||
        decide (e - i > MAX_ACCEPTANCE_WINDOW_MS)) = true := by
      simp only [Bool.or_eq_true, decide_eq_true_eq]
      omega
    simp only [hcond, reduceIte]
    exact iff_of_true (by simp) hc

/-- Concrete `Date` table for engine witnesses: `t0` ↦ 0 ms,
`tL` ↦ 1200000 ms (20 minutes later). -/
def wEngParse (s : String) : Option Int :=
  if s == "t0" then some 0
  else if s == "tL" then some 1200000 else none

/-- Concrete engine environment for witnesses. -/
def wEngEnv : EngEnv :=
  { nowMs := 1000, parseDate := wEngParse,
    pubkeyFor := fun _ => some "PEM",
    verifyEd := fun _ _ _ => true, verifyHmac := fun _ _ => true,
    hashHex := fun s => toString s.length,
    msToIso := fun n => toString n, uuid1 := "u1", uuid2 := "u2" }

/-- Concrete engine acceptance with a 20-minute window (longer than the
10-minute cap). -/
def wEngAcc : EngAcceptance :=
  { issuedAt := some "t0", expiresAt := some "tL",
    alg := some "hmac-sha256", sigHex := some "aa" }

/-- Concrete reliance intent carrying `wEngAcc`. -/
def wEngIntent : EngIntent :=
  { actorId := some "A1",
    actionName := some "reliance_eligible_output",
    acceptance := some wEngAcc }

/-- Witness for C5: a 20-minute acceptance window violates the cap and
is denied with `invalid_acceptance_window`. -/
theorem C5_witness :
    ¬((0 : Int) < 1200000 ∧
      (1200000 : Int) - 0 ≤ MAX_ACCEPTANCE_WINDOW_MS) ∧
    ((authorizeExecution wEngEnv [] (some wEngIntent)).1.decision =
      Dec.DENY ∧
     (authorizeExecution wEngEnv [] (some wEngIntent)).1.reason =
      some "invalid_acceptance_window") :=
  ⟨by decide,
    (C5_engine_window_cap wEngEnv [] wEngIntent wEngAcc 0 1200000
      rfl rfl rfl rfl rfl rfl rfl rfl rfl (by decide)
      (by decide)).mpr (by decide)⟩

theorem policyForAction_cases (a : String) (p : EngPolicy)
    (h : policyForAction a = some p) :
    (a = "draft_assist" ∧ p = POLICY_draft_assist) ∨
    (a = "reliance_eligible_output" ∧ p = POLICY_reliance) := by
  unfold policyForAction at h
  split at h
  · rename_i hb
    exact Or.inl ⟨eq_of_beq hb, by injection h with h; exact h.symm⟩
  · split at h
    · rename_i hb
      exact Or.inr ⟨eq_of_beq hb, by injection h with h; exact h.symm⟩
    · cases h

/-- C10: for an intent whose action resolves to a policy with
`requireAcceptance` not `true` (e.g. `draft_assist`) and a present actor
id, the engine permits with `expiresAt` two minutes from now, without
reading the acceptance (the whole result is invariant under replacing
the acceptance) and without reserving anything in the replay guard (the
seen set is merely cleaned); the engine performs no ledger write at
all. -/
theorem C10_engine_low_risk_permit (env : EngEnv)
    (seen : List (String × Int)) (it : EngIntent) (p : EngPolicy)
    (ha : truthy it.actorId = true)
    (hno : truthy it.actionName = true)
    (hp : policyForAction (it.actionName.getD "") = some p)
    (hreq : p.requireAcceptance = false) :
    (authorizeExecution env seen (some it)).1.decision = Dec.PERMIT ∧
    (authorizeExecution env seen (some it)).1.expiresAt =
      some (env.msToIso (env.nowMs + 2 * 60 * 1000)) ∧
    (∀ a2 : Option EngAcceptance,
      authorizeExecution env seen (some { it with acceptance := a2 }) =
        authorizeExecution env seen (some it)) ∧
    (authorizeExecution env seen (some it)).2 =
      cleanupSeen env.nowMs seen := by
  rcases policyForAction_cases _ p hp with ⟨h1, h2⟩ | ⟨h1, h2⟩
  · subst h2
    have hne : (it.actionName.getD "" ==
        "reliance_eligible_output") = false := by
      rw [h1]; decide
    simp only [authorizeExecution, ha, hno, hp, hne, hreq,
      POLICY_draft_assist, Bool.false_and, Bool.not_true,
      Bool.not_false, Bool.false_eq_true, reduceIte]
    simp
  · rw [h2] at hreq
    simp [POLICY_reliance] at hreq

/-- Concrete `draft_assist` intent with no acceptance. -/
def wDraftIntent : EngIntent :=
  { actorId := some "A1", actionName := some "draft_assist" }

/-- Witness for C10 with the `draft_assist` action. -/
theorem C10_witness :
    policyForAction (wDraftIntent.actionName.getD "") =
      some POLICY_draft_assist ∧
    ((authorizeExecution wEngEnv [] (some wDraftIntent)).1.decision =
      Dec.PERMIT ∧
     (authorizeExecution wEngEnv [] (some wDraftIntent)).1.expiresAt =
      some (wEngEnv.msToIso (wEngEnv.nowMs + 2 * 60 * 1000)) ∧
     (∀ a2 : Option EngAcceptance,
       authorizeExecution wEngEnv []
           (some { wDraftIntent with acceptance := a2 }) =
         authorizeExecution wEngEnv [] (some wDraftIntent)) ∧
     (authorizeExecution wEngEnv [] (some wDraftIntent)).2 =
      cleanupSeen wEngEnv.nowMs []) :=
  ⟨rfl, C10_engine_low_risk_permit wEngEnv [] wDraftIntent
    POLICY_draft_assist rfl rfl rfl rfl⟩

/-- A gate outcome with the `time` echo removed: everything the caller
and the ledger depend on. -/
def scrubResp (r : GateResponse × List LedgerRow) :
    GateResponse × List LedgerRow :=
  ({ r.1 with time := none }, r.2)

theorem ledgerInsert_time (n : Int) (pd : String → Option Int)
    (hh : String → String) (vf : String → String → String → Bool)
    (fp : String) (rg : String → KeyFetch) (wf : Bool)
    (s1 s2 : String) :
    ledgerInsert ⟨n, pd, hh, vf, fp, rg, wf, s1⟩ =
      ledgerInsert ⟨n, pd, hh, vf, fp, rg, wf, s2⟩ := rfl

theorem execFinish_scrub (n : Int) (pd : String → Option Int)
    (hh : String → String) (vf : String → String → String → Bool)
    (fp : String) (rg : String → KeyFetch) (wf : Bool) (s1 s2 : String)
    (st : List LedgerRow) (a b c d e : String) (acc : Acceptance)
    (pem : String) (k o p : Option String) :
    scrubResp (execFinish ⟨n, pd, hh, vf, fp, rg, wf, s1⟩ st
        a b c d e acc pem k o p) =
      scrubResp (execFinish ⟨n, pd, hh, vf, fp, rg, wf, s2⟩ st
        a b c d e acc pem k o p) := by
  simp only [execFinish, denyLogged, denyResp]
  rw [ledgerInsert_time n pd hh vf fp rg wf s1 s2]
  repeat' split
  all_goals rfl

theorem execChecks_scrub (n : Int) (pd : String → Option Int)
    (hh : String → String) (vf : String → String → String → Bool)
    (fp : String) (rg : String → KeyFetch) (wf : Bool) (s1 s2 : String)
    (st : List LedgerRow) (a b c d e : String) (acc : Acceptance) :
    scrubResp (execChecks ⟨n, pd, hh, vf, fp, rg, wf, s1⟩ st
        a b c d e acc) =
      scrubResp (execChecks ⟨n, pd, hh, vf, fp, rg, wf, s2⟩ st
        a b c d e acc) := by
  simp only [execChecks, denyLogged, denyResp]
  rw [ledgerInsert_time n pd hh vf fp rg wf s1 s2]
  repeat' split
  all_goals first
    | rfl
    | apply execFinish_scrub

theorem executeGate_scrub (n : Int) (pd : String → Option Int)
    (hh : String → String) (vf : String → String → String → Bool)
    (fp : String) (rg : String → KeyFetch) (wf : Bool) (s1 s2 : String)
    (st : List LedgerRow) (body : RequestBody) :
    scrubResp (executeGate ⟨n, pd, hh, vf, fp, rg, wf, s1⟩ st body) =
      scrubResp (executeGate ⟨n, pd, hh, vf, fp, rg, wf, s2⟩ st body) := by
  simp only [executeGate]
  repeat' split
  all_goals first
    | rfl
    | apply execChecks_scrub

/-- An engine outcome with the random `permitId`/`jti` identifiers
removed: decision, reason, expiry and the replay-guard state. -/
def scrubEng (r : EngResult × List (String × Int)) :
    EngResult × List (String × Int) :=
  ({ r.1 with permitId := none, jti := none }, r.2)

theorem engineSigCheck_env (n : Int) (pd : String → Option Int)
    (pk : String → Option String) (ve : String → String → String → Bool)
    (vh : String → String → Bool) (hh : String → String)
    (mi : Int → String) (u1 u2 v1 v2 : String) :
    engineSigCheck ⟨n, pd, pk, ve, vh, hh, mi, u1, u2⟩ =
      engineSigCheck ⟨n, pd, pk, ve, vh, hh, mi, v1, v2⟩ := rfl

theorem makeAcceptanceId_env (n : Int) (pd : String → Option Int)
    (pk : String → Option String) (ve : String → String → String → Bool)
    (vh : String → String → Bool) (hh : String → String)
    (mi : Int → String) (u1 u2 v1 v2 : String) :
    makeAcceptanceId ⟨n, pd, pk, ve, vh, hh, mi, u1, u2⟩ =
      makeAcceptanceId ⟨n, pd, pk, ve, vh, hh, mi, v1, v2⟩ := rfl

theorem engineFinish_scrub (n : Int) (pd : String → Option Int)
    (pk : String → Option String) (ve : String → String → String → Bool)
    (vh : String → String → Bool) (hh : String → String)
    (mi : Int → String) (u1 u2 v1 v2 : String)
    (seen1 : List (String × Int)) (actorId actionName : String)
    (hA : Bool) (acc : EngAcceptance) (expires : Int) :
    scrubEng (engineFinish ⟨n, pd, pk, ve, vh, hh, mi, u1, u2⟩ seen1
        actorId actionName hA acc expires) =
      scrubEng (engineFinish ⟨n, pd, pk, ve, vh, hh, mi, v1, v2⟩ seen1
        actorId actionName hA acc expires) := by
  simp only [engineFinish]
  rw [engineSigCheck_env n pd pk ve vh hh mi u1 u2 v1 v2,
    makeAcceptanceId_env n pd pk ve vh hh mi u1 u2 v1 v2]
  repeat' split
  all_goals rfl

theorem authorizeExecution_scrub (n : Int) (pd : String → Option Int)
    (pk : String → Option String) (ve : String → String → String → Bool)
    (vh : String → String → Bool) (hh : String → String)
    (mi : Int → String) (u1 u2 v1 v2 : String)
    (seen : List (String × Int)) (it : Option EngIntent) :
    scrubEng (authorizeExecution ⟨n, pd, pk, ve, vh, hh, mi, u1, u2⟩
        seen it) =
      scrubEng (authorizeExecution ⟨n, pd, pk, ve, vh, hh, mi, v1, v2⟩
        seen it) := by
  simp only [authorizeExecution]
  repeat' split
  all_goals first
    | rfl
    | apply engineFinish_scrub

/-- C9: the decision logic is a pure function of the request, the
clock, the registry and the ledger/replay state.  The only
request-independent inputs — the `startedAt` timestamp echoed by the
gate and the two `crypto.randomUUID()` draws of the engine — do not
influence the decision, the reason, or the resulting ledger/replay
state, so two evaluations with identical time, registry and state agree
on `decision` and `reasonCode`. -/
theorem C9_decision_deterministic :
    (∀ (env : GateEnv) (st : List LedgerRow) (body : RequestBody)
      (s : String),
      (executeGate { env with startedAtIso := s } st body).1.decision =
        (executeGate env st body).1.decision ∧
      (executeGate { env with startedAtIso := s } st body).1.reason =
        (executeGate env st body).1.reason ∧
      (executeGate { env with startedAtIso := s } st body).2 =
        (executeGate env st body).2) ∧
    (∀ (env : EngEnv) (seen : List (String × Int))
      (it : Option EngIntent) (u1 u2 : String),
      (authorizeExecution { env with uuid1 := u1, uuid2 := u2 }
          seen it).1.decision =
        (authorizeExecution env seen it).1.decision ∧
      (authorizeExecution { env with uuid1 := u1, uuid2 := u2 }
          seen it).1.reason =
        (authorizeExecution env seen it).1.reason ∧
      (authorizeExecution { env with uuid1 := u1, uuid2 := u2 }
          seen it).2 =
        (authorizeExecution env seen it).2) := by
  constructor
  · intro env st body s
    obtain ⟨n, pd, hh, vf, fp, rg, wf, s0⟩ := env
    have h := executeGate_scrub n pd hh vf fp rg wf s s0 st body
    exact ⟨congrArg (fun x => x.1.decision) h,
      congrArg (fun x => x.1.reason) h, congrArg (fun x => x.2) h⟩
  · intro env seen it u1 u2
    obtain ⟨n, pd, pk, ve, vh, hh, mi, u01, u02⟩ := env
    have h := authorizeExecution_scrub n pd pk ve vh hh mi u1 u2 u01 u02
      seen it
    exact ⟨congrArg (fun x => x.1.decision) h,
      congrArg (fun x => x.1.reason) h, congrArg (fun x => x.2) h⟩

/-- A structurally complete `/v1/execute` request body. -/
def mkBody (it : IntentObj) (ex : JValue) (acc : Acceptance) :
    RequestBody :=
  { intent := some it, execute := some ex, acceptance := some acc }

/-- The key-usability test the gate applies to a resolved registry row:
active status (case-insensitive) and inside the validity window. -/
def keyUsable (row : KeyRow) (now : Int) : Bool :=
  !(lowerStr row.status != "active") && isWithinValidityWindow row now

/-- C6: a registry key is usable exactly when its status is `active`,
`validFrom ≤ now`, and `validUntil` is absent or `now ≤ validUntil`
(for rows whose timestamps parse); and when key resolution fails — the
registry lookup errors out or the id is unknown — the gate answers DENY
with the corresponding reason instead of skipping verification. -/
theorem C6_key_usability_fail_closed :
    (∀ (row : KeyRow) (now f : Int), row.validFrom = some f →
      row.validUntil ≠ some none →
      (keyUsable row now = true ↔
        (lowerStr row.status = "active" ∧ f ≤ now ∧
         (row.validUntil = none ∨
          ∃ u, row.validUntil = some (some u) ∧ now ≤ u)))) ∧
    (∀ (env : GateEnv) (st : List LedgerRow) (it : IntentObj)
      (ex : JValue) (acc : Acceptance) (kid : String),
      truthy it.actorId = true → truthy it.intentName = true →
      jsTruthy ex = true →
      truthy acc.issuer = true → truthy acc.actorId = true →
      truthy acc.intent = true → truthy acc.issuedAt = true →
      truthy acc.expiresAt = true → truthy acc.signature = true →
      ltDate env.nowMs (env.parseDate (acc.issuedAt.getD "")) = false →
      gtDate env.nowMs (env.parseDate (acc.expiresAt.getD "")) = false →
      (acc.actorId.getD "" != it.actorId.getD "") = false →
      (acc.intent.getD "" != it.intentName.getD "") = false →
      (asUuidStr acc.authorityKeyId <|>
        asUuidStr acc.authorityKeyIdSnake) = some kid →
      (∀ msg, env.registry kid = .lookupFailed msg →
        (executeGate env st (mkBody it ex acc)).1 =
          denyResp "authority_key_lookup_failed") ∧
      (env.registry kid = .notFound →
        (executeGate env st (mkBody it ex acc)).1 =
          denyResp "authority_key_not_found")) := by
  constructor
  · intro row now f hvf hwu
    unfold keyUsable isWithinValidityWindow
    rw [hvf]
    rcases hu : row.validUntil with _ | u
    · by_cases hlt : now < f
      · simp only [hlt, bne_iff_ne, reduceIte, Bool.and_eq_true,
          Bool.not_eq_eq_eq_not, Bool.not_true, decide_eq_false_iff_not,
          Decidable.not_not, Bool.false_eq_true, and_false, false_iff,
          not_and, ne_eq, not_not]
        simp <;> omega
      · simp [hlt, bne_iff_ne] <;> omega
    · rcases u with _ | t
      · exact absurd hu hwu
      · by_cases hlt : now < f
        · simp [hlt, bne_iff_ne] <;> omega
        · by_cases hgt : now > t
          · simp [hlt, hgt, bne_iff_ne] <;> omega
          · simp [hlt, hgt, bne_iff_ne] <;> omega
  · intro env st it ex acc kid h1 h2 h3 c1 c2 c3 c4 c5 c6 hti hte
      hba hbi hkid
    constructor
    · intro msg hreg
      simp only [executeGate, execChecks, mkBody, h1, h2, h3, c1, c2,
        c3, c4, c5, c6, hti, hte, hba, hbi, hkid, hreg, Bool.and_self,
        Bool.and_true, Bool.true_and, Bool.not_true, Bool.or_self,
        Bool.false_or, Bool.or_false, Bool.false_eq_true, reduceIte,
        denyLogged]
    · intro hreg
      simp only [executeGate, execChecks, mkBody, h1, h2, h3, c1, c2,
        c3, c4, c5, c6, hti, hte, hba, hbi, hkid, hreg, Bool.and_self,
        Bool.and_true, Bool.true_and, Bool.not_true, Bool.or_self,
        Bool.false_or, Bool.or_false, Bool.false_eq_true, reduceIte,
        denyLogged]

/-- A concrete registry row (status `Active`, window `[0, 900]` ms). -/
def wKeyRow : KeyRow :=
  { id := "K", publicKey := "PEM", validFrom := some 0,
    validUntil := some (some 900), status := "Active" }

/-- `wAcc` carrying an authority-key id. -/
def wAccKid : Acceptance :=
  { issuer := some "I", actorId := some "A1", intent := some "transfer",
    issuedAt := some "t0", expiresAt := some "t9",
    signature := some "SIG", authorityKeyId := some "K" }

/-- `wEnv` with a registry whose lookups error out. -/
def wEnvReg : GateEnv :=
  { wEnv with registry := fun _ => .lookupFailed "boom" }

/-- Witness for C6: the usability equivalence at a concrete row, and a
concrete request denied on registry-lookup failure. -/
theorem C6_witness :
    (keyUsable wKeyRow 500 = true ↔
      (lowerStr wKeyRow.status = "active" ∧ (0 : Int) ≤ 500 ∧
       (wKeyRow.validUntil = none ∨
        ∃ u, wKeyRow.validUntil = some (some u) ∧ (500 : Int) ≤ u))) ∧
    (executeGate wEnvReg [] (mkBody wIntent (.obj []) wAccKid)).1 =
      denyResp "authority_key_lookup_failed" :=
  ⟨C6_key_usability_fail_closed.1 wKeyRow 500 0 rfl (by decide),
   (C6_key_usability_fail_closed.2 wEnvReg [] wIntent (.obj [])
      wAccKid "K" rfl rfl rfl rfl rfl rfl rfl rfl rfl rfl rfl rfl rfl
      rfl).1 "boom" rfl⟩

@[simp] theorem denyResp_decision (r : String) :
    (denyResp r).decision = Dec.DENY := rfl

@[simp] theorem denyResp_reason (r : String) :
    (denyResp r).reason = some r := rfl

@[simp] theorem denyLogged_fst (env : GateEnv) (st : List LedgerRow)
    (row : LedgerRow) : (denyLogged env st row).1 = denyResp row.reason :=
  rfl

/-- The acceptance hash the gate computes for a request body. -/
def gateAcceptanceHash (env : GateEnv) (body : RequestBody) : String :=
  match body.acceptance with
  | some acc => env.hashHex (canonical acc.toJ)
  | none => ""

theorem ledgerInsert_mono (env : GateEnv) (st : List LedgerRow)
    (row : LedgerRow) : ∃ t, (ledgerInsert env st row).2 = st ++ t := by
  unfold ledgerInsert
  repeat' split
  all_goals first
    | exact ⟨[row], rfl⟩
    | exact ⟨[], (List.append_nil st).symm⟩

theorem ledgerInsert_ok (env : GateEnv) (st : List LedgerRow)
    (row : LedgerRow) (st2 : List LedgerRow)
    (h : ledgerInsert env st row = (.ok, st2)) :
    st2 = st ++ [row] ∧ env.writeFail = false ∧
    (∀ hsh, row.acceptanceHash = some hsh →
      st.any (fun r => r.acceptanceHash == some hsh) = false) := by
  unfold ledgerInsert at h
  split at h
  · simp at h
  · rename_i hwf
    split at h
    · rename_i hsh heq2
      split at h
      · simp at h
      · rename_i hany
        refine ⟨(Prod.mk.injEq _ _ _ _).mp h |>.2.symm, by simpa using hwf,
          fun h2 hh2 => ?_⟩
        rw [heq2] at hh2
        cases hh2
        simpa using hany
    · exact ⟨(Prod.mk.injEq _ _ _ _).mp h |>.2.symm, by simpa using hwf,
        fun h2 hh2 => by simp_all⟩

theorem execFinish_mono (env : GateEnv) (st : List LedgerRow)
    (a b c d e : String) (acc : Acceptance) (pem : String)
    (k o p : Option String) :
    ∃ t, (execFinish env st a b c d e acc pem k o p).2 = st ++ t := by
  unfold execFinish denyLogged
  split
  · exact ledgerInsert_mono env st _
  · split <;> rename_i st2 heq <;>
      (obtain ⟨t, ht⟩ := ledgerInsert_mono env st
        { actorId := a, intentName := b, intentHash := c,
          executeHash := orNull d, acceptanceHash := orNull e,
          decision := Dec.PERMIT,
          reason := "valid_acceptance_signature",
          authorityKeyId := k, organizationId := o, principalId := p }
       rw [heq] at ht
       exact ⟨t, ht⟩)

theorem execChecks_mono (env : GateEnv) (st : List LedgerRow)
    (a b c d e : String) (acc : Acceptance) :
    ∃ t, (execChecks env st a b c d e acc).2 = st ++ t := by
  unfold execChecks denyLogged
  repeat' split
  all_goals first
    | exact ledgerInsert_mono env st _
    | exact execFinish_mono ..

theorem executeGate_mono (env : GateEnv) (st : List LedgerRow)
    (body : RequestBody) :
    ∃ t, (executeGate env st body).2 = st ++ t := by
  unfold executeGate
  repeat' split
  all_goals first
    | exact execChecks_mono ..
    | exact ⟨[], (List.append_nil st).symm⟩

theorem execFinish_permit (env : GateEnv) (st : List LedgerRow)
    (a b c d e : String) (acc : Acceptance) (pem : String)
    (k o p : Option String) (resp : GateResponse) (st2 : List LedgerRow)
    (hE : execFinish env st a b c d e acc pem k o p = (resp, st2))
    (hdec : resp.decision = Dec.PERMIT) :
    env.writeFail = false ∧
    env.verify pem
      (acceptMaterial (acc.issuer.getD "") (acc.actorId.getD "")
        (acc.intent.getD "") d (acc.issuedAt.getD "")
        (acc.expiresAt.getD "")) (acc.signature.getD "") = true ∧
    ∃ row, st2 = st ++ [row] ∧ row.decision = Dec.PERMIT ∧
      row.acceptanceHash = orNull e ∧
      (∀ hsh, orNull e = some hsh →
        st.any (fun r => r.acceptanceHash == some hsh) = false) := by
  unfold execFinish at hE
  split at hE
  · cases hE
    simp at hdec
  · rename_i hv
    split at hE <;> rename_i stx heq <;> cases hE
    · obtain ⟨h1, h2, h3⟩ := ledgerInsert_ok env st _ _ heq
      exact ⟨h2, by simpa using hv, _, h1, rfl, rfl, h3⟩
    · simp at hdec
    · simp at hdec

theorem execChecks_permit (env : GateEnv) (st : List LedgerRow)
    (a b c d e : String) (acc : Acceptance) (resp : GateResponse)
    (st2 : List LedgerRow)
    (hE : execChecks env st a b c d e acc = (resp, st2))
    (hdec : resp.decision = Dec.PERMIT) :
    env.writeFail = false ∧
    ∃ row, st2 = st ++ [row] ∧ row.decision = Dec.PERMIT ∧
      row.acceptanceHash = orNull e ∧
      (∀ hsh, orNull e = some hsh →
        st.any (fun r => r.acceptanceHash == some hsh) = false) := by
  unfold execChecks at hE
  repeat' split at hE
  all_goals
    first
    | (cases hE; simp at hdec)
    | (obtain ⟨h1, h2, h3⟩ :=
        execFinish_permit _ _ _ _ _ _ _ _ _ _ _ _ _ _ hE hdec
       exact ⟨h1, h3⟩)

theorem executeGate_permit (env : GateEnv) (st : List LedgerRow)
    (body : RequestBody) (resp : GateResponse) (st2 : List LedgerRow)
    (hE : executeGate env st body = (resp, st2))
    (hdec : resp.decision = Dec.PERMIT) :
    env.writeFail = false ∧
    ∃ row, st2 = st ++ [row] ∧ row.decision = Dec.PERMIT ∧
      row.acceptanceHash = orNull (gateAcceptanceHash env body) ∧
      (∀ hsh, orNull (gateAcceptanceHash env body) = some hsh →
        st.any (fun r => r.acceptanceHash == some hsh) = false) := by
  unfold executeGate at hE
  repeat' split at hE
  all_goals
    first
    | (cases hE; simp at hdec)
    | (rename_i it0 ex0 acc0 hsome1 hsome2 hsome3 hstruct
       have hga : gateAcceptanceHash env body =
           env.hashHex (canonical (Acceptance.toJ acc0)) := by
         unfold gateAcceptanceHash
         rw [hsome3]
       rw [hga]
       exact execChecks_permit _ _ _ _ _ _ _ _ _ _ hE hdec)

theorem execFinish_failClosed (env : GateEnv) (st : List LedgerRow)
    (a b c d e : String) (acc : Acceptance) (pem : String)
    (k o p : Option String) (hwf : env.writeFail = true) :
    (execFinish env st a b c d e acc pem k o p).1.decision = Dec.DENY ∧
    (execFinish env st a b c d e acc pem k o p).2 = st := by
  simp only [execFinish, denyLogged, ledgerInsert, hwf, reduceIte]
  split <;> simp

theorem execChecks_failClosed (env : GateEnv) (st : List LedgerRow)
    (a b c d e : String) (acc : Acceptance) (hwf : env.writeFail = true) :
    (execChecks env st a b c d e acc).1.decision = Dec.DENY ∧
    (execChecks env st a b c d e acc).2 = st := by
  simp only [execChecks, denyLogged, ledgerInsert, hwf, reduceIte]
  repeat' split
  all_goals first
    | exact execFinish_failClosed _ _ _ _ _ _ _ _ _ _ _ _ hwf
    | simp

theorem executeGate_failClosed (env : GateEnv) (st : List LedgerRow)
    (body : RequestBody) (hwf : env.writeFail = true) :
    (executeGate env st body).1.decision = Dec.DENY ∧
    (executeGate env st body).2 = st := by
  simp only [executeGate]
  repeat' split
  all_goals first
    | exact execChecks_failClosed _ _ _ _ _ _ _ _ hwf
    | simp

theorem execFinish_writeFail (n : Int) (pd : String → Option Int)
    (hh : String → String) (vf : String → String → String → Bool)
    (fp : String) (rg : String → KeyFetch) (s1 : String)
    (st : List LedgerRow) (a b c d e : String) (acc : Acceptance)
    (pem : String) (k o p : Option String)
    (hv : vf pem
      (acceptMaterial (acc.issuer.getD "") (acc.actorId.getD "")
        (acc.intent.getD "") d (acc.issuedAt.getD "")
        (acc.expiresAt.getD "")) (acc.signature.getD "") = true) :
    execFinish ⟨n, pd, hh, vf, fp, rg, true, s1⟩ st a b c d e acc pem
        k o p = (denyResp "ledger_write_failed", st) := by
  simp only [execFinish, ledgerInsert, hv, Bool.not_true,
    Bool.false_eq_true, reduceIte]

theorem execChecks_writeFail (n : Int) (pd : String → Option Int)
    (hh : String → String) (vf : String → String → String → Bool)
    (fp : String) (rg : String → KeyFetch) (s1 s2 : String)
    (st : List LedgerRow) (a b c d e : String) (acc : Acceptance)
    (resp : GateResponse) (st2 : List LedgerRow)
    (hE : execChecks ⟨n, pd, hh, vf, fp, rg, false, s1⟩ st a b c d e
      acc = (resp, st2))
    (hdec : resp.decision = Dec.PERMIT) :
    execChecks ⟨n, pd, hh, vf, fp, rg, true, s2⟩ st a b c d e acc =
      (denyResp "ledger_write_failed", st) := by
  simp only [execChecks] at hE ⊢
  repeat' split at hE
  all_goals first
    | (cases hE; simp at hdec)
    | (obtain ⟨hwf0, hv, hrest⟩ :=
        execFinish_permit _ _ _ _ _ _ _ _ _ _ _ _ _ _ hE hdec
       simp only [*, reduceIte]
       exact execFinish_writeFail n pd hh vf fp rg s2 st _ _ _ _ _ acc
         _ _ _ _ hv)

theorem executeGate_writeFail (n : Int) (pd : String → Option Int)
    (hh : String → String) (vf : String → String → String → Bool)
    (fp : String) (rg : String → KeyFetch) (s1 s2 : String)
    (st : List LedgerRow) (body : RequestBody) (resp : GateResponse)
    (st2 : List LedgerRow)
    (hE : executeGate ⟨n, pd, hh, vf, fp, rg, false, s1⟩ st body =
      (resp, st2))
    (hdec : resp.decision = Dec.PERMIT) :
    executeGate ⟨n, pd, hh, vf, fp, rg, true, s2⟩ st body =
      (denyResp "ledger_write_failed", st) := by
  simp only [executeGate] at hE ⊢
  repeat' split at hE
  all_goals first
    | (cases hE; simp at hdec)
    | (simp only [*, reduceIte]
       exact execChecks_writeFail n pd hh vf fp rg s1 s2 st _ _ _ _ _ _
         _ _ hE hdec)

/-- C1: PERMIT is gated on the ledger append.  (i) Every PERMIT
response comes with exactly one appended PERMIT row carrying the
request's acceptance hash; (ii) when the ledger is unwritable every
request is denied and the ledger is unchanged, so no PERMIT entry
exists for the acceptance hash that was not there before; (iii) a
request that would PERMIT with a writable ledger is instead denied
with reason `ledger_write_failed` when the write fails (the unique
index, i.e. a replay, is reported separately). -/
theorem C1_permit_requires_ledger_append :
    (∀ (env : GateEnv) (st : List LedgerRow) (body : RequestBody),
      (executeGate env st body).1.decision = Dec.PERMIT →
      env.writeFail = false ∧
      ∃ row, (executeGate env st body).2 = st ++ [row] ∧
        row.decision = Dec.PERMIT ∧
        row.acceptanceHash = orNull (gateAcceptanceHash env body)) ∧
    (∀ (env : GateEnv) (st : List LedgerRow) (body : RequestBody),
      env.writeFail = true →
      (executeGate env st body).1.decision = Dec.DENY ∧
      (executeGate env st body).2 = st) ∧
    (∀ (env : GateEnv) (st : List LedgerRow) (body : RequestBody),
      (executeGate { env with writeFail := false } st body).1.decision =
        Dec.PERMIT →
      executeGate { env with writeFail := true } st body =
        (denyResp "ledger_write_failed", st)) := by
  refine ⟨?_, ?_, ?_⟩
  · intro env st body hdec
    obtain ⟨hwf, row, h1, h2, h3, _⟩ := executeGate_permit env st body
      (executeGate env st body).1 (executeGate env st body).2 rfl hdec
    exact ⟨hwf, row, h1, h2, h3⟩
  · intro env st body hwf
    exact executeGate_failClosed env st body hwf
  · intro env st body hdec
    obtain ⟨n, pd, hh, vf, fp, rg, wf, s0⟩ := env
    exact executeGate_writeFail n pd hh vf fp rg s0 s0 st body _ _ rfl
      hdec

theorem orNull_of_ne (s : String) (h : s ≠ "") : orNull s = some s := by
  unfold orNull
  rw [if_neg]
  simp [String.isEmpty_iff, h]

/-- Total PERMIT answers observed for acceptance hash `h` while running
a sequence of requests through the gate, threading the ledger state. -/
def permitCountFor (env : GateEnv) (h : String) :
    List RequestBody → List LedgerRow → Nat
  | [], _ => 0
  | b :: bs, st =>
    (if gateAcceptanceHash env b = h ∧
        (executeGate env st b).1.decision = Dec.PERMIT then 1 else 0) +
    permitCountFor env h bs (executeGate env st b).2

theorem permitCountFor_occupied (env : GateEnv) (h : String)
    (bs : List RequestBody) : ∀ st, h ≠ "" →
    st.any (fun r => r.acceptanceHash == some h) = true →
    permitCountFor env h bs st = 0 := by
  induction bs with
  | nil => intro st _ _; rfl
  | cons b bs ih =>
    intro st hne hocc
    have hd : ¬ (gateAcceptanceHash env b = h ∧
        (executeGate env st b).1.decision = Dec.PERMIT) := by
      rintro ⟨hgb, hperm⟩
      obtain ⟨_, row, _, _, _, hfree⟩ :=
        executeGate_permit env st b _ _ rfl hperm
      rw [hgb] at hfree
      have hf := hfree h (orNull_of_ne h hne)
      rw [hf] at hocc
      cases hocc
    obtain ⟨t, ht⟩ := executeGate_mono env st b
    have hocc2 : (executeGate env st b).2.any
        (fun r => r.acceptanceHash == some h) = true := by
      rw [ht, List.any_append, hocc, Bool.true_or]
    simp only [permitCountFor, if_neg hd, Nat.zero_add]
    exact ih _ hne hocc2

theorem permitCountFor_free (env : GateEnv) (h : String)
    (bs : List RequestBody) : ∀ st, h ≠ "" →
    st.any (fun r => r.acceptanceHash == some h) = false →
    permitCountFor env h bs st ≤ 1 := by
  induction bs with
  | nil => intro st _ _; exact Nat.zero_le 1
  | cons b bs ih =>
    intro st hne _
    by_cases hd : gateAcceptanceHash env b = h ∧
        (executeGate env st b).1.decision = Dec.PERMIT
    · obtain ⟨hgb, hperm⟩ := hd
      obtain ⟨_, row, hst2, _, hracc, _⟩ :=
        executeGate_permit env st b _ _ rfl hperm
      have hst2x : (executeGate env st b).2 = st ++ [row] := hst2
      have hocc2 : (executeGate env st b).2.any
          (fun r => r.acceptanceHash == some h) = true := by
        rw [hst2x, List.any_append]
        have hb : row.acceptanceHash == some h := by
          rw [hracc, hgb, orNull_of_ne h hne]
          simp
        simp [hb]
      have hd2 : gateAcceptanceHash env b = h ∧
          (executeGate env st b).1.decision = Dec.PERMIT := ⟨hgb, hperm⟩
      simp only [permitCountFor, if_pos hd2,
        permitCountFor_occupied env h bs _ hne hocc2]
      omega
    · by_cases hx : (executeGate env st b).2.any
          (fun r => r.acceptanceHash == some h) = true
      · simp only [permitCountFor, if_neg hd, Nat.zero_add]
        rw [permitCountFor_occupied env h bs _ hne hx]
        exact Nat.zero_le 1
      · simp only [permitCountFor, if_neg hd, Nat.zero_add]
        exact ih _ hne (Bool.not_eq_true _ ▸ Bool.eq_false_iff.mpr hx)

theorem execFinish_replay (env : GateEnv) (st : List LedgerRow)
    (a b c d e : String) (acc : Acceptance) (pem : String)
    (k o p : Option String) (h : String)
    (hv : env.verify pem
      (acceptMaterial (acc.issuer.getD "") (acc.actorId.getD "")
        (acc.intent.getD "") d (acc.issuedAt.getD "")
        (acc.expiresAt.getD "")) (acc.signature.getD "") = true)
    (hwf : env.writeFail = false)
    (he : orNull e = some h)
    (hocc : st.any (fun r => r.acceptanceHash == some h) = true) :
    execFinish env st a b c d e acc pem k o p =
      (denyResp "acceptance_replay_detected", st) := by
  simp only [execFinish, ledgerInsert, hv, hwf, he, hocc,
    Bool.not_true, Bool.false_eq_true, reduceIte]

theorem execChecks_replay (env : GateEnv) (st : List LedgerRow)
    (a b c d e : String) (acc : Acceptance) (resp : GateResponse)
    (st2 : List LedgerRow) (st3 : List LedgerRow) (h : String)
    (hE : execChecks env st a b c d e acc = (resp, st2))
    (hdec : resp.decision = Dec.PERMIT)
    (he : orNull e = some h)
    (hocc : st3.any (fun r => r.acceptanceHash == some h) = true) :
    execChecks env st3 a b c d e acc =
      (denyResp "acceptance_replay_detected", st3) := by
  simp only [execChecks] at hE ⊢
  repeat' split at hE
  all_goals first
    | (cases hE; simp at hdec)
    | (obtain ⟨hwf0, hv, hrest⟩ :=
        execFinish_permit _ _ _ _ _ _ _ _ _ _ _ _ _ _ hE hdec
       simp only [*, reduceIte]
       exact execFinish_replay env st3 _ _ _ _ _ acc _ _ _ _ h hv hwf0
         he hocc)

theorem executeGate_replay (env : GateEnv) (st : List LedgerRow)
    (body : RequestBody) (resp : GateResponse) (st2 : List LedgerRow)
    (st3 : List LedgerRow) (h : String)
    (hE : executeGate env st body = (resp, st2))
    (hdec : resp.decision = Dec.PERMIT)
    (he : orNull (gateAcceptanceHash env body) = some h)
    (hocc : st3.any (fun r => r.acceptanceHash == some h) = true) :
    executeGate env st3 body =
      (denyResp "acceptance_replay_detected", st3) := by
  simp only [executeGate] at hE ⊢
  repeat' split at hE
  all_goals first
    | (cases hE; simp at hdec)
    | (rename_i it0 ex0 acc0 hsome1 hsome2 hsome3 hstruct
       have hga : gateAcceptanceHash env body =
           env.hashHex (canonical (Acceptance.toJ acc0)) := by
         unfold gateAcceptanceHash
         rw [hsome3]
       rw [hga] at he
       simp only [*, reduceIte]
       exact execChecks_replay env st _ _ _ _ _ acc0 _ _ st3 h hE hdec
         he hocc)

/-- C2 (corrected): at most one PERMIT per acceptance hash.  (i) Over
any request sequence run from a ledger state with no row for a
non-empty acceptance hash, the gate answers PERMIT for that hash at
most once; (ii) once some ledger row carries the hash, a request
presenting that acceptance is always denied; (iii) an immediate
identical re-run of a request that just permitted is denied with
reason `acceptance_replay_detected`.  The literal claim — that every
subsequent identical request gets reason `acceptance_replay_detected`
— is refuted by the counterexample: after the window expires the
denial reason is `acceptance_not_in_valid_time_window` instead. -/
theorem C2_at_most_one_permit_per_acceptance :
    (∀ (env : GateEnv) (h : String) (bs : List RequestBody)
       (st : List LedgerRow), h ≠ "" →
       st.any (fun r => r.acceptanceHash == some h) = false →
       permitCountFor env h bs st ≤ 1) ∧
    (∀ (env : GateEnv) (st : List LedgerRow) (body : RequestBody),
       gateAcceptanceHash env body ≠ "" →
       st.any (fun r =>
         r.acceptanceHash == some (gateAcceptanceHash env body)) =
           true →
       (executeGate env st body).1.decision = Dec.DENY) ∧
    (∀ (env : GateEnv) (st : List LedgerRow) (body : RequestBody),
       (executeGate env st body).1.decision = Dec.PERMIT →
       gateAcceptanceHash env body ≠ "" →
       executeGate env (executeGate env st body).2 body =
         (denyResp "acceptance_replay_detected",
          (executeGate env st body).2)) := by
  refine ⟨?_, ?_, ?_⟩
  · intro env h bs st hne hfree
    exact permitCountFor_free env h bs st hne hfree
  · intro env st body hne hocc
    rcases executeGate_decision_cases env st body with hperm | hden
    · obtain ⟨_, row, _, _, _, hfree⟩ :=
        executeGate_permit env st body _ _ rfl hperm
      have hf := hfree (gateAcceptanceHash env body)
        (orNull_of_ne _ hne)
      rw [hf] at hocc
      cases hocc
    · exact hden
  · intro env st body hperm hne
    obtain ⟨_, row, hst2, _, hracc, _⟩ :=
      executeGate_permit env st body _ _ rfl hperm
    have hst2x : (executeGate env st body).2 = st ++ [row] := hst2
    have hocc : (executeGate env st body).2.any (fun r =>
        r.acceptanceHash == some (gateAcceptanceHash env body)) =
          true := by
      rw [hst2x, List.any_append]
      have hb : row.acceptanceHash ==
          some (gateAcceptanceHash env body) := by
        rw [hracc, orNull_of_ne _ hne]
        simp
      simp [hb]
    exact executeGate_replay env st body _ _ _ _ rfl hperm
      (orNull_of_ne _ hne) hocc

/-- Counterexample to the literal C2 reading: the same request re-sent
after the acceptance window has expired is denied with reason
`acceptance_not_in_valid_time_window`, not
`acceptance_replay_detected`. -/
theorem C2_counterexample :
    (executeGate wEnv []
      (mkBody wIntent (.obj []) wAcc)).1.decision = Dec.PERMIT ∧
    (executeGate { wEnv with nowMs := 600001 }
        (executeGate wEnv [] (mkBody wIntent (.obj []) wAcc)).2
        (mkBody wIntent (.obj []) wAcc)).1.reason =
      some "acceptance_not_in_valid_time_window" ∧
    ("acceptance_not_in_valid_time_window" : String) ≠
      "acceptance_replay_detected" :=
  ⟨by decide, by decide, by decide⟩

/-- Witness for C2 at concrete inputs: the count bound over a two-
request sequence, the occupied-state denial, and the immediate replay
denial with its reason. -/
theorem C2_witness :
    permitCountFor wEnv
      (gateAcceptanceHash wEnv (mkBody wIntent (.obj []) wAcc))
      [mkBody wIntent (.obj []) wAcc, mkBody wIntent (.obj []) wAcc]
      [] ≤ 1 ∧
    (executeGate wEnv
      (executeGate wEnv [] (mkBody wIntent (.obj []) wAcc)).2
      (mkBody wIntent (.obj []) wAcc)).1.decision = Dec.DENY ∧
    executeGate wEnv
        (executeGate wEnv [] (mkBody wIntent (.obj []) wAcc)).2
        (mkBody wIntent (.obj []) wAcc) =
      (denyResp "acceptance_replay_detected",
       (executeGate wEnv [] (mkBody wIntent (.obj []) wAcc)).2) :=
  ⟨C2_at_most_one_permit_per_acceptance.1 wEnv
     (gateAcceptanceHash wEnv (mkBody wIntent (.obj []) wAcc))
     [mkBody wIntent (.obj []) wAcc, mkBody wIntent (.obj []) wAcc]
     [] (by decide) (by decide),
   C2_at_most_one_permit_per_acceptance.2.1 wEnv
     (executeGate wEnv [] (mkBody wIntent (.obj []) wAcc)).2
     (mkBody wIntent (.obj []) wAcc) (by decide) (by decide),
   C2_at_most_one_permit_per_acceptance.2.2 wEnv []
     (mkBody wIntent (.obj []) wAcc) (by decide) (by decide)⟩

/-- Escape-invariant strings: every character serializes to itself
inside a JSON string literal.  SHA-256 hex digests are of this kind. -/
def escInvB (s : String) : Bool := s.data.all fun c => escChar c == [c]

theorem data_mk (l : List Char) : (String.mk l).data = l := rfl

theorem flatten_escChar (l : List Char)
    (h : l.all (fun c => escChar c == [c]) = true) :
    (l.map escChar).flatten = l := by
  induction l with
  | nil => rfl
  | cons c cs ih =>
    simp only [List.all_cons, Bool.and_eq_true, beq_iff_eq] at h
    simp only [List.map_cons, List.flatten_cons, h.1, ih h.2]
    rfl

/-- The signing material is the canonical serialization of the sorted
six-field object — the `executeHash` sits between the `actorId` and
`expiresAt` fields. -/
theorem acceptMaterial_sorted (i a t d ia ea : String) :
    acceptMaterial i a t d ia ea =
      serialize (.obj [("actorId", .str a), ("executeHash", .str d),
        ("expiresAt", .str ea), ("intent", .str t),
        ("issuedAt", .str ia), ("issuer", .str i)]) := rfl

theorem acceptMaterial_inj (i a t d d2 ia ea : String)
    (h1 : escInvB d = true) (h2 : escInvB d2 = true)
    (h : acceptMaterial i a t d ia ea = acceptMaterial i a t d2 ia ea) :
    d = d2 := by
  rw [acceptMaterial_sorted, acceptMaterial_sorted] at h
  have hd := congrArg String.data h
  simp only [serialize, serializeO, encodeStr, String.data_append,
    data_mk, List.append_assoc, List.cons_append, List.nil_append] at hd
  rw [flatten_escChar d.data h1, flatten_escChar d2.data h2] at hd
  simp only [List.append_right_inj, List.cons.injEq, true_and] at hd
  exact String.ext ((List.append_left_inj _).mp hd)

theorem execFinish_sig_fail (env : GateEnv) (st2 : List LedgerRow)
    (a b c d d2 e : String) (acc : Acceptance) (pem : String)
    (k o p : Option String)
    (hfun : ∀ pm m m2 sgn, env.verify pm m sgn = true →
      env.verify pm m2 sgn = true → m = m2)
    (hv : env.verify pem
      (acceptMaterial (acc.issuer.getD "") (acc.actorId.getD "")
        (acc.intent.getD "") d (acc.issuedAt.getD "")
        (acc.expiresAt.getD "")) (acc.signature.getD "") = true)
    (hne : d2 ≠ d) (h1 : escInvB d = true) (h2 : escInvB d2 = true) :
    (execFinish env st2 a b c d2 e acc pem k o p).1 =
      denyResp "invalid_acceptance_signature" := by
  have hv2 : env.verify pem
      (acceptMaterial (acc.issuer.getD "") (acc.actorId.getD "")
        (acc.intent.getD "") d2 (acc.issuedAt.getD "")
        (acc.expiresAt.getD "")) (acc.signature.getD "") = false := by
    by_cases hx : env.verify pem
        (acceptMaterial (acc.issuer.getD "") (acc.actorId.getD "")
          (acc.intent.getD "") d2 (acc.issuedAt.getD "")
          (acc.expiresAt.getD "")) (acc.signature.getD "") = true
    · exact absurd
        (acceptMaterial_inj (acc.issuer.getD "") (acc.actorId.getD "")
          (acc.intent.getD "") d2 d (acc.issuedAt.getD "")
          (acc.expiresAt.getD "") h2 h1 (hfun _ _ _ _ hx hv)) hne
    · exact Bool.eq_false_iff.mpr hx
  simp only [execFinish, denyLogged, hv2, Bool.not_false, reduceIte]

theorem execChecks_sig_binding (env : GateEnv)
    (st st2 : List LedgerRow) (a b c d d2 e : String)
    (acc : Acceptance) (resp : GateResponse) (st1 : List LedgerRow)
    (hfun : ∀ pm m m2 sgn, env.verify pm m sgn = true →
      env.verify pm m2 sgn = true → m = m2)
    (hE : execChecks env st a b c d e acc = (resp, st1))
    (hdec : resp.decision = Dec.PERMIT)
    (hne : d2 ≠ d) (h1 : escInvB d = true) (h2 : escInvB d2 = true) :
    (execChecks env st2 a b c d2 e acc).1 =
      denyResp "invalid_acceptance_signature" := by
  simp only [execChecks] at hE ⊢
  repeat' split at hE
  all_goals first
    | (cases hE; simp at hdec)
    | (obtain ⟨hwf0, hv, hrest⟩ :=
        execFinish_permit _ _ _ _ _ _ _ _ _ _ _ _ _ _ hE hdec
       simp only [*, reduceIte]
       exact execFinish_sig_fail env st2 _ _ _ d d2 _ acc _ _ _ _ hfun
         hv hne h1 h2)

theorem executeGate_exec_binding (env : GateEnv)
    (st st2 : List LedgerRow) (it : IntentObj) (ex1 ex2 : JValue)
    (acc : Acceptance) (resp : GateResponse) (st1 : List LedgerRow)
    (hfun : ∀ pm m m2 sgn, env.verify pm m sgn = true →
      env.verify pm m2 sgn = true → m = m2)
    (hE : executeGate env st (mkBody it ex1 acc) = (resp, st1))
    (hdec : resp.decision = Dec.PERMIT)
    (htr : jsTruthy ex2 = true)
    (hne : env.hashHex (canonical ex2) ≠ env.hashHex (canonical ex1))
    (h1 : escInvB (env.hashHex (canonical ex1)) = true)
    (h2 : escInvB (env.hashHex (canonical ex2)) = true) :
    (executeGate env st2 (mkBody it ex2 acc)).1 =
      denyResp "invalid_acceptance_signature" := by
  simp only [executeGate, mkBody] at hE ⊢
  split at hE
  · cases hE; simp at hdec
  · rename_i hstruct
    have hx : (truthy it.actorId && truthy it.intentName &&
        jsTruthy ex1) = true := by
      cases hxx : (truthy it.actorId && truthy it.intentName &&
          jsTruthy ex1) with
      | true => rfl
      | false => exact absurd (by rw [hxx]; rfl) hstruct
    rw [Bool.and_eq_true, Bool.and_eq_true] at hx
    obtain ⟨⟨hA, hI⟩, _⟩ := hx
    rw [if_neg (by simp [hA, hI, htr])]
    exact execChecks_sig_binding env st st2 _ _ _ _ _ _ acc resp st1
      hfun hE hdec hne h1 h2

/-- C3: the signed acceptance material binds the execute payload.
(i) The material is injective in its `executeHash` slot for
escape-invariant hashes (hex digests are escape-invariant), so the
signature covers the hash of the canonicalized execution payload;
(ii) for a verifier that accepts at most one message per signature
(the cryptographic assumption), if a request permits with execute
payload `ex1`, then the same intent and acceptance presented with any
execute payload whose hash differs (a change to any byte of the
canonical form, absent a hash collision) is denied with reason
`invalid_acceptance_signature` — never PERMIT. -/
theorem C3_execute_hash_binding :
    (∀ (i a t d d2 ia ea : String), escInvB d = true →
       escInvB d2 = true →
       acceptMaterial i a t d ia ea = acceptMaterial i a t d2 ia ea →
       d = d2) ∧
    (∀ (env : GateEnv) (st st2 : List LedgerRow) (it : IntentObj)
       (ex1 ex2 : JValue) (acc : Acceptance),
       (∀ pm m m2 sgn, env.verify pm m sgn = true →
         env.verify pm m2 sgn = true → m = m2) →
       (executeGate env st (mkBody it ex1 acc)).1.decision =
         Dec.PERMIT →
       jsTruthy ex2 = true →
       env.hashHex (canonical ex2) ≠ env.hashHex (canonical ex1) →
       escInvB (env.hashHex (canonical ex1)) = true →
       escInvB (env.hashHex (canonical ex2)) = true →
       (executeGate env st2 (mkBody it ex2 acc)).1 =
         denyResp "invalid_acceptance_signature") := by
  refine ⟨?_, ?_⟩
  · intro i a t d d2 ia ea h1 h2 h
    exact acceptMaterial_inj i a t d d2 ia ea h1 h2 h
  · intro env st st2 it ex1 ex2 acc hfun hdec htr hne h1 h2
    exact executeGate_exec_binding env st st2 it ex1 ex2 acc _ _ hfun
      rfl hdec htr hne h1 h2

/-- The one acceptance material the C3 witness verifier accepts: it
binds the (length-)hash of the canonical empty-object payload. -/
def wMat : String :=
  acceptMaterial "I" "A1" "transfer"
    (wEnv.hashHex (canonical (JValue.obj []))) "t0" "t9"

/-- `wEnv` with a functional verifier: a signature verifies exactly
the material `wMat`. -/
def wEnvC3 : GateEnv :=
  { wEnv with verify := fun _ m _ => m == wMat }

/-- Witness for C3: material injectivity applied at a concrete slot
value, and a concrete modified execute payload denied with
`invalid_acceptance_signature` after the original permitted. -/
theorem C3_witness :
    ("2" : String) = "2" ∧
    (executeGate wEnvC3 []
        (mkBody wIntent (.obj [("x", .str "y")]) wAcc)).1 =
      denyResp "invalid_acceptance_signature" :=
  ⟨C3_execute_hash_binding.1 "I" "A1" "transfer" "2" "2" "t0" "t9"
     (by decide) (by decide) rfl,
   C3_execute_hash_binding.2 wEnvC3 [] [] wIntent (.obj [])
     (.obj [("x", .str "y")]) wAcc
     (fun _ m m2 _ hm hm2 => (eq_of_beq hm).trans (eq_of_beq hm2).symm)
     (by decide) (by decide) (by decide) (by decide) (by decide)⟩

/-- Witness for C1: a concrete request that permits appends a PERMIT
row carrying its acceptance hash; with the ledger unwritable the same
request is denied with `ledger_write_failed` and the ledger unchanged. -/
theorem C1_witness :
    (wEnv.writeFail = false ∧
     ∃ row,
       (executeGate wEnv [] (mkBody wIntent (.obj []) wAcc)).2 =
         [] ++ [row] ∧
       row.decision = Dec.PERMIT ∧
       row.acceptanceHash =
         orNull (gateAcceptanceHash wEnv
           (mkBody wIntent (.obj []) wAcc))) ∧
    ((executeGate { wEnv with writeFail := true } []
        (mkBody wIntent (.obj []) wAcc)).1.decision = Dec.DENY ∧
     (executeGate { wEnv with writeFail := true } []
        (mkBody wIntent (.obj []) wAcc)).2 = []) ∧
    executeGate { wEnv with writeFail := true } []
        (mkBody wIntent (.obj []) wAcc) =
      (denyResp "ledger_write_failed", []) :=
  ⟨C1_permit_requires_ledger_append.1 wEnv []
     (mkBody wIntent (.obj []) wAcc) (by decide),
   C1_permit_requires_ledger_append.2.1 { wEnv with writeFail := true }
     [] (mkBody wIntent (.obj []) wAcc) rfl,
   C1_permit_requires_ledger_append.2.2 wEnv []
     (mkBody wIntent (.obj []) wAcc) (by decide)⟩

end Solace
